import Mathlib

/-!
Verification development for the rtfconverter repository (Go).

The Go sources are shallowly embedded: byte streams become `List Nat`
(each entry a byte value), Go `int` values that may be negative become
`Int`, Go maps become association lists, fallible or panicking code
returns `Except`/`Option`.  Every definition is translated from the
corresponding Go function (file and function named in its doc comment);
definitions that instead follow the specification's words are marked as
such.
-/

set_option maxRecDepth 10000

namespace RtfConverter

/-! ## Byte-class helpers (src/utils.go) -/

/-- Translates `ByteIsAsciiLetter` (src/utils.go): the regexp `[A-Za-z]`
matched against the single byte. -/
def ByteIsAsciiLetter (b : Nat) : Bool :=
  (65 ≤ b && b ≤ 90) || (97 ≤ b && b ≤ 122)

/-- Translates `ByteIsDigit` (src/utils.go): the regexp `[0-9]`. -/
def ByteIsDigit (b : Nat) : Bool :=
  48 ≤ b && b ≤ 57

/-- Translates `ByteIsHexDigit` (src/utils.go).  Despite its name, the Go
function matches the regexp `[A-Za-z0-9]`, i.e. it accepts every ASCII
letter and digit, not only hexadecimal digits. -/
def ByteIsHexDigit (b : Nat) : Bool :=
  ByteIsAsciiLetter b || ByteIsDigit b

/-- Specification-side predicate: a genuine hexadecimal digit
(`0-9`, `A-F`, `a-f`).  Used to state what the spec means by
"hexadecimal digit"; contrast with `ByteIsHexDigit` above. -/
def IsRealHexDigit (b : Nat) : Bool :=
  (48 ≤ b && b ≤ 57) || (65 ≤ b && b ≤ 70) || (97 ≤ b && b ≤ 102)

/-! ## Compressed-RTF decompressor (src/decompress.go) -/

/-- One round of the CRC table generator loop body from `init`
(src/decompress.go): `if c&1 == 1 { c = 0xEDB88320 ^ (c >>> 1) } else
{ c = c >>> 1 }`. -/
def crc32Round (c : Nat) : Nat :=
  if c % 2 == 1 then Nat.xor 0xEDB88320 (c >>> 1) else c >>> 1

/-- Translates the `init` loop building `CRC32_TABLE`
(src/decompress.go): entry `i` is eight rounds applied to `i`. -/
def CRC32_TABLE : List Nat :=
  (List.range 256).map (fun i => crc32Round^[8] i)

/-- Translates `calculateCRC32Continue` (src/decompress.go): fold the
table step `crc = CRC32_TABLE[(crc^buf[i])&0xFF] ^ (crc >>> 8)` over
`l` bytes of `buf` starting at `off`. -/
def calculateCRC32Continue (buf : List Nat) (off l crc : Nat) : Nat :=
  match l with
  | 0 => crc
  | l + 1 =>
    let b := buf.getD off 0
    calculateCRC32Continue buf (off + 1) l
      (Nat.xor (CRC32_TABLE.getD (Nat.xor crc b % 256) 0) (crc >>> 8))

/-- Translates `calculateCRC32` (src/decompress.go). -/
def calculateCRC32 (buf : List Nat) (off l : Nat) : Nat :=
  calculateCRC32Continue buf off l 0

/-- Translates `getU32` (src/decompress.go): little-endian unsigned
32-bit value assembled from four bytes (`t&0xFF` masks mirrored by
`% 256`, the final `& 0xFFFFFFFF` by `% 2^32`).  Out-of-range reads
default to 0; `Decompress` only calls it inside the 16-byte header. -/
def getU32 (buf : List Nat) (off : Nat) : Nat :=
  let t0 := buf.getD off 0 % 256
  let t1 := buf.getD (off + 1) 0 % 256
  let t2 := buf.getD (off + 2) 0 % 256
  let t3 := buf.getD (off + 3) 0 % 256
  (t0 + t1 * 256 + t2 * 65536 + t3 * 16777216) % 4294967296

/-- The 207-byte fixed preamble `COMPRESSED_RTF_PREBUF` from
`Decompress` (src/decompress.go), byte for byte. -/
def COMPRESSED_RTF_PREBUF : List Nat :=
  [123, 92, 114, 116, 102, 49, 92, 97, 110, 115, 105, 92, 109, 97, 99, 92,
  100, 101, 102, 102, 48, 92, 100, 101, 102, 116, 97, 98, 55, 50, 48, 123,
  92, 102, 111, 110, 116, 116, 98, 108, 59, 125, 123, 92, 102, 48, 92, 102,
  110, 105, 108, 32, 92, 102, 114, 111, 109, 97, 110, 32, 92, 102, 115, 119,
  105, 115, 115, 32, 92, 102, 109, 111, 100, 101, 114, 110, 32, 92, 102, 115,
  99, 114, 105, 112, 116, 32, 92, 102, 100, 101, 99, 111, 114, 32, 77, 83,
  32, 83, 97, 110, 115, 32, 83, 101, 114, 105, 102, 83, 121, 109, 98, 111,
  108, 65, 114, 105, 97, 108, 84, 105, 109, 101, 115, 32, 78, 101, 119, 32,
  82, 111, 109, 97, 110, 67, 111, 117, 114, 105, 101, 114, 123, 92, 99, 111,
  108, 111, 114, 116, 98, 108, 92, 114, 101, 100, 48, 92, 103, 114, 101, 101,
  110, 48, 92, 98, 108, 117, 101, 48, 10, 13, 92, 112, 97, 114, 32, 92,
  112, 97, 114, 100, 92, 112, 108, 97, 105, 110, 92, 102, 48, 92, 102, 115,
  50, 48, 92, 98, 92, 105, 92, 117, 92, 116, 97, 98, 92, 116, 120]

/-- Outcomes of `Decompress`.  The first four correspond to the
`errors.New` returns in src/decompress.go; `panicOutOfBounds` models a
Go runtime panic from an out-of-range slice index (which in Go aborts
the call instead of returning an error value). -/
inductive DecompressError where
  | invalidHeader
  | sizeMismatch
  | unknownMagic
  | crcMismatch
  | panicOutOfBounds
  deriving DecidableEq, Repr

/-- Translates the byte-by-byte back-reference copy loop of `Decompress`
(src/decompress.go lines 132-138): `for offset < end { dst[out] =
dst[offset]; out++; offset++ }`, executed `cnt = end - offset` times.
`offset` is an `Int` because the Go code can drive it negative
(`offset -= DICT_SIZE`), which would index `dst` out of range:
that and any other out-of-range index yields `none` (a Go panic). -/
def copyRef (dst : Array Nat) (offset : Int) (out : Nat) :
    Nat → Option (Array Nat × Nat)
  | 0 => some (dst, out)
  | cnt + 1 =>
    if h : 0 ≤ offset ∧ offset.toNat < dst.size ∧ out < dst.size then
      copyRef (dst.set ⟨out, h.2.2⟩ (dst.get ⟨offset.toNat, h.2.1⟩))
        (offset + 1) (out + 1) cnt
    else none

/-- The back-reference offset `(hi << 4) | (lo >>> 4)` from the decode
loop of `Decompress` (src/decompress.go line 114); `hi`/`lo` are the
two bytes read (`& 0xFF` mirrored by `% 256`). -/
def refOffset (hi lo : Nat) : Nat :=
  Nat.lor ((hi % 256) <<< 4) ((lo % 256) >>> 4)

/-- The back-reference copy length `(lo & 0xF) + 2` from the decode
loop of `Decompress` (src/decompress.go line 115). -/
def refLength (lo : Nat) : Nat :=
  (lo % 256) % 16 + 2

/-- The absolute offset `out & ^DICT_MASK | offset` from the decode
loop of `Decompress` (src/decompress.go line 122): the low 12 bits of
the write position are replaced by the 12-bit offset. -/
def refAbs (out offset : Nat) : Nat :=
  Nat.lor ((out >>> 12) <<< 12) offset

/-- Translates the main literal/back-reference loop of `Decompress`
(src/decompress.go lines 88-140).  `inPos`/`out`/`flagCount`/`flags`
are the Go locals `in`, `out`, `flagCount`, `flags`.  Go indexes `src`
and `dst` without checks and panics when out of range; the model makes
each such access a bounds test whose failure is
`.error .panicOutOfBounds` (for a back-reference the two byte reads
are merged into one test: Go panics on whichever of the two is out of
range, with the same overall outcome).  The self-reference sentinel
(`offset == out`) returns the buffer built so far. -/
def decodeLoop (src : List Nat) (dst : Array Nat)
    (inPos out flagCount flags : Nat) :
    Except DecompressError (Array Nat) :=
  -- Each flag byte controls 8 literals/references, 1 per bit.
  if flagCount % 8 == 0 then
    -- flags = src[in]; in += 1
    if hin : inPos < src.length then
      if src[inPos] % 2 == 0 then
        -- literal
        if hb : inPos + 1 < src.length then
          if hout : out < dst.size then
            decodeLoop src (dst.set ⟨out, hout⟩ src[inPos + 1]) (inPos + 2)
              (out + 1) (flagCount + 1) src[inPos]
          else .error .panicOutOfBounds
        else .error .panicOutOfBounds
      else
        -- back-reference: 12-bit offset and 4-bit length
        if href : inPos + 2 < src.length then
          if refAbs out (refOffset (src[inPos + 1]) src[inPos + 2]) ≥ out then
            if refAbs out (refOffset (src[inPos + 1]) src[inPos + 2]) = out then
              .ok dst -- a self-reference marks the end of data
            else
              match copyRef dst
                ((refAbs out (refOffset (src[inPos + 1]) src[inPos + 2]) : Int)
                  - 4096) out (refLength src[inPos + 2]) with
              | some (dst', out') =>
                decodeLoop src dst' (inPos + 3) out' (flagCount + 1) src[inPos]
              | none => .error .panicOutOfBounds
          else
            match copyRef dst
              ((refAbs out (refOffset (src[inPos + 1]) src[inPos + 2]) : Int))
              out (refLength src[inPos + 2]) with
            | some (dst', out') =>
              decodeLoop src dst' (inPos + 3) out' (flagCount + 1) src[inPos]
            | none => .error .panicOutOfBounds
        else .error .panicOutOfBounds
    else .error .panicOutOfBounds
  else
    -- flags = flags >>> 1
    if flags >>> 1 % 2 == 0 then
      if hin : inPos < src.length then
        if hout : out < dst.size then
          decodeLoop src (dst.set ⟨out, hout⟩ src[inPos]) (inPos + 1)
            (out + 1) (flagCount + 1) (flags >>> 1)
        else .error .panicOutOfBounds
      else .error .panicOutOfBounds
    else
      if hin : inPos + 1 < src.length then
        if refAbs out (refOffset (src[inPos]) src[inPos + 1]) ≥ out then
          if refAbs out (refOffset (src[inPos]) src[inPos + 1]) = out then
            .ok dst
          else
            match copyRef dst
              ((refAbs out (refOffset (src[inPos]) src[inPos + 1]) : Int)
                - 4096) out (refLength src[inPos + 1]) with
            | some (dst', out') =>
              decodeLoop src dst' (inPos + 2) out' (flagCount + 1) (flags >>> 1)
            | none => .error .panicOutOfBounds
        else
          match copyRef dst
            ((refAbs out (refOffset (src[inPos]) src[inPos + 1]) : Int))
            out (refLength src[inPos + 1]) with
          | some (dst', out') =>
            decodeLoop src dst' (inPos + 2) out' (flagCount + 1) (flags >>> 1)
          | none => .error .panicOutOfBounds
      else .error .panicOutOfBounds
  termination_by src.length - inPos
  decreasing_by
    all_goals
      simp_wf
      omega

def MAGIC_COMPRESSED : Nat := 0x75465a4c

def MAGIC_UNCOMPRESSED : Nat := 0x414c454d

/-- Translates `Decompress` (src/decompress.go).  Header checks in
source order: length, size field, magic, CRC; the uncompressed magic
returns `src` verbatim; the compressed magic prefills `dst` with the
207-byte preamble followed by `uncompressedSize` zero bytes
(`dst = make([]byte, out+uncompressedSize)` with the preamble copied
in), runs the decode loop from `in = 16`, `out = len(preamble)` and
strips the preamble from the result.  The Go locals `compressedSize`,
`uncompressedSize`, `magic`, `crc32sum` are written out as
`getU32 src 0/4/8/12`. -/
def Decompress (src : List Nat) : Except DecompressError (List Nat) :=
  if src.length < 16 then .error .invalidHeader
  else if getU32 src 0 ≠ src.length - 4 then .error .sizeMismatch
  else if getU32 src 8 = MAGIC_UNCOMPRESSED then .ok src
  else if getU32 src 8 = MAGIC_COMPRESSED then
    if getU32 src 12 ≠ calculateCRC32 src 16 (src.length - 16) then
      .error .crcMismatch
    else
      match decodeLoop src
        (COMPRESSED_RTF_PREBUF ++ List.replicate (getU32 src 4) 0).toArray
        16 COMPRESSED_RTF_PREBUF.length 0 0 with
      | .ok d => .ok (d.toList.drop COMPRESSED_RTF_PREBUF.length)
      | .error e => .error e
  else .error .unknownMagic

/-- Post-condition transported by the decode loop: the result is
either the out-of-bounds panic or a buffer of the same size as the
current one. -/
def decodePost (res : Except DecompressError (Array Nat))
    (dst : Array Nat) : Prop :=
  res = .error .panicOutOfBounds ∨ ∃ r, res = .ok r ∧ r.size = dst.size

/-- A 19-byte compressed-RTF stream: header `compressedSize = 15`,
`uncompressedSize = 0`, compressed magic, correct CRC over the
3-byte payload `[0x01, 0x0C, 0xF0]`: one flag byte whose low bit marks
a back-reference with offset `(0x0C << 4) | (0xF0 >>> 4) = 207`, the
write position right after the preamble (the self-reference
sentinel). -/
def c7src : List Nat :=
  [15, 0, 0, 0, 0, 0, 0, 0, 76, 90, 70, 117, 39, 215, 202, 16, 1, 12, 240]

/-- A 16-byte stream that passes every header check (`compressedSize =
12 = len - 4`, compressed magic, CRC of the empty payload = 0) but has
no payload at all: the decode loop's first flag-byte read `src[16]` is
out of range. -/
def c9src : List Nat :=
  [12, 0, 0, 0, 0, 0, 0, 0, 76, 90, 70, 117, 0, 0, 0, 0]

/-! ## Tokenizer (src/structure.go) -/

/-- Models Go `bufio.Reader.ReadRune` given the first byte `b0` and
the remaining stream: decodes one UTF-8 encoded character following
Go `unicode/utf8.DecodeRune` (acceptance ranges per first byte; a
surrogate, out-of-range or truncated encoding is invalid).  Returns
the code point and the stream after the rune; an invalid encoding
consumes only `b0` and yields U+FFFD (65533). -/
def readRune (b0 : Nat) (rest : List Nat) : Nat × List Nat :=
  if b0 < 128 then (b0, rest)
  else if 194 ≤ b0 && b0 ≤ 223 then
    match rest with
    | b1 :: r1 =>
      if 128 ≤ b1 && b1 ≤ 191 then ((b0 % 32) * 64 + b1 % 64, r1)
      else (65533, rest)
    | [] => (65533, rest)
  else if 224 ≤ b0 && b0 ≤ 239 then
    match rest with
    | b1 :: b2 :: r2 =>
      if (if b0 = 224 then 160 ≤ b1 && b1 ≤ 191
          else if b0 = 237 then 128 ≤ b1 && b1 ≤ 159
          else 128 ≤ b1 && b1 ≤ 191) && (128 ≤ b2 && b2 ≤ 191) then
        ((b0 % 16) * 4096 + (b1 % 64) * 64 + b2 % 64, r2)
      else (65533, rest)
    | _ => (65533, rest)
  else if 240 ≤ b0 && b0 ≤ 244 then
    match rest with
    | b1 :: b2 :: b3 :: r3 =>
      if (if b0 = 240 then 144 ≤ b1 && b1 ≤ 191
          else if b0 = 244 then 128 ≤ b1 && b1 ≤ 143
          else 128 ≤ b1 && b1 ≤ 191) && (128 ≤ b2 && b2 ≤ 191) &&
          (128 ≤ b3 && b3 ≤ 191) then
        ((b0 % 8) * 262144 + (b1 % 64) * 4096 + (b2 % 64) * 64 + b3 % 64, r3)
      else (65533, rest)
    | _ => (65533, rest)
  else (65533, rest)

/-- Models `bytes.Buffer.WriteRune`: the UTF-8 encoding of a code
point (all code points produced by `readRune` are valid scalars). -/
def utf8Encode (cp : Nat) : List Nat :=
  if cp < 128 then [cp]
  else if cp < 2048 then [192 + cp / 64, 128 + cp % 64]
  else if cp < 65536 then
    [224 + cp / 4096, 128 + (cp / 64) % 64, 128 + cp % 64]
  else
    [240 + cp / 262144, 128 + (cp / 4096) % 64, 128 + (cp / 64) % 64,
     128 + cp % 64]

/-- The four node kinds of the token tree (src/unnamed/part_000):
`rtfGroup` (children only; the parent back-edge is not needed by the
embedded functions), `rtfControlWord` (`word`, `parameter` strings),
`rtfControlSymbol` (`symbol`, `parameter` strings), `rtfText` (raw
bytes). -/
inductive rtfElement where
  | group (children : List rtfElement)
  | controlWord (word parameter : String)
  | controlSymbol (symbol parameter : String)
  | text (content : List Nat)

/-- Bytes to a Go string (each byte becomes the character of its code
point, as Go `string(b)` does for a single byte). -/
def strOfBytes (bs : List Nat) : String :=
  String.mk (bs.map Char.ofNat)

/-- Models Go `strconv.Atoi`: optional sign, then at least one digit,
nothing else (integer overflow, irrelevant at RTF parameter sizes, is
not modeled). -/
def atoiGo (s : String) : Option Int :=
  let step : List Char → Option Nat := fun ds =>
    if ds ≠ [] && ds.all (fun c => 48 ≤ c.toNat && c.toNat ≤ 57) then
      some (ds.foldl (fun acc c => acc * 10 + (c.toNat - 48)) 0)
    else none
  match s.data with
  | [] => none
  | c :: rest =>
    if c = Char.ofNat 45 then (step rest).map (fun n => -(n : Int))
    else if c = Char.ofNat 43 then (step rest).map (fun n => (n : Int))
    else (step s.data).map (fun n => (n : Int))

/-- Go's control-word parameter fallback (src/structure.go lines
437-444): `Atoi` of the parameter string, with 1 for the empty string
and 1 when `Atoi` fails. -/
def paramValue (s : String) : Int :=
  if s.length = 0 then 1
  else
    match atoiGo s with
    | some v => v
    | none => 1

/-- Tokenizer state (the fields of `RtfStructure`, src/structure.go,
as the `Parse` loop uses them).  `stack` holds the children built so
far for each currently open group, innermost first; the bottom frame
is the root's.  `rootStarted` is Go `Root != nil`; an empty `stack`
with `rootStarted` is Go `currentGroup == nil` after the root closed,
and `root` then holds the finished root children.  `uc` is the `uc`
slice with its top (Go: last element) at the head. -/
structure TokState where
  rootStarted : Bool
  stack : List (List rtfElement)
  root : Option (List rtfElement)
  uc : List Int

/-- Go `currentGroup.addChild(e)`: appends to the innermost open
group; `none` models the nil-pointer panic when `currentGroup` is
nil. -/
def addChildTok (st : TokState) (e : rtfElement) : Option TokState :=
  match st.stack with
  | [] => none
  | top :: rest => some { st with stack := (top ++ [e]) :: rest }

/-- Translates `RtfStructure.startGroup` (src/structure.go lines
125-142): the first group becomes the root and pushes `1` on `uc`;
a nested group is pushed as the new current group and `uc` inherits
(duplicates) its top.  `none` models the Go panics: `addChild` on a
nil `currentGroup`, or `uc[len-1]` on an empty `uc` slice. -/
def startGroupTok (st : TokState) : Option TokState :=
  if st.rootStarted = false then
    some { st with rootStarted := true, stack := [[]], uc := 1 :: st.uc }
  else
    match st.stack, st.uc with
    | _ :: _, u :: _ => some { st with stack := [] :: st.stack, uc := u :: st.uc }
    | _, _ => none

/-- Translates `RtfStructure.endGroup` (src/structure.go lines
149-160): the current group closes (its element is appended to the
parent's children; if it was the root, the finished children are
recorded) and one `uc` frame is popped when the stack is nonempty
(`if len(uc) > 0`).  `none` models the nil-pointer panic of
`currentGroup.GetParent()` when no group is open. -/
def endGroupTok (st : TokState) : Option TokState :=
  match st.stack with
  | [] => none
  | cs :: rest =>
    let st2 :=
      match rest with
      | [] => { st with stack := [], root := some cs }
      | parent :: rest2 => { st with stack := (parent ++ [rtfElement.group cs]) :: rest2 }
    some { st2 with uc := st2.uc.tail }

/-- Translates the text-accumulation loop of `RtfStructure.parseText`
(src/structure.go lines 175-233) as a pure function from the stream to
the accumulated buffer bytes and the remaining stream: bare CR/LF are
discarded; `\\` followed by `\{`, `\}` or `\\` copies both bytes into the
run; a backslash followed by any other byte (2-byte lookahead) ends
the run; a lone trailing backslash is copied and ends the run at EOF;
`{`/`}` end the run; any other byte is read as a rune and re-encoded
into the buffer (`WriteRune`). -/
def parseTextLoop : List Nat → List Nat × List Nat
  | [] => ([], [])
  | b :: rest =>
    if b = 13 || b = 10 then parseTextLoop rest
    else if b = 92 then
      match rest with
      | [] => ([92], [])
      | c :: rest2 =>
        if c ≠ 125 && c ≠ 123 && c ≠ 92 then ([], b :: rest)
        else
          let (buf, r) := parseTextLoop rest2
          (92 :: c :: buf, r)
    else if b = 123 || b = 125 then ([], b :: rest)
    else
      let rr := readRune b rest
      let br := parseTextLoop rr.2
      (utf8Encode rr.1 ++ br.1, br.2)
  termination_by s => s.length
  decreasing_by
    all_goals simp_wf
    all_goals try omega
    · refine Nat.lt_succ_of_le ?_
      have hrr : ∀ (b0 : Nat) (r : List Nat),
          (readRune b0 r).2.length ≤ r.length := by
        intro b0 r
        unfold readRune
        repeat' split
        all_goals simp_all
        all_goals omega
      exact hrr _ _

/-- Translates `RtfStructure.parseText` (src/structure.go): runs the
loop and appends a `rtfText` child only when the buffer is nonempty.
`none` models the addChild nil-pointer panic.  Returns the new state
and the remaining stream. -/
def parseTextTok (st : TokState) (s : List Nat) :
    Option (TokState × List Nat) :=
  match parseTextLoop s with
  | (buf, r) =>
    if buf.isEmpty then some (st, r)
    else (addChildTok st (.text buf)).map (·, r)

/-- Translates the two-hex-digit read of
`RtfStructure.parseControlSymbol` (src/structure.go lines 332-344):
peek a byte, consume it only if `ByteIsHexDigit` accepts it, at most
twice.  Returns the parameter bytes and the remaining stream. -/
def readHexParam (s : List Nat) : List Nat × List Nat :=
  match s with
  | [] => ([], [])
  | b :: rest =>
    if ByteIsHexDigit b then
      match rest with
      | c :: rest2 =>
        if ByteIsHexDigit c then ([b, c], rest2) else ([b], rest)
      | [] => ([b], [])
    else ([], s)

/-- Translates `RtfStructure.parseControlSymbol` (src/structure.go
lines 292-349), applied to the stream just after the backslash: an
EOL byte (with an optional second EOL byte collapsed) becomes the
control word `par`; `'` reads up to two parameter bytes via
`readHexParam`; any other byte becomes a parameter-less control
symbol.  At EOF (or EOL followed by EOF) the function returns without
emitting a token, as the Go code does. -/
def parseControlSymbolTok (st : TokState) (s : List Nat) :
    Option (TokState × List Nat) :=
  match s with
  | [] => some (st, [])
  | b :: rest =>
    if b = 13 || b = 10 then
      match rest with
      | [] => some (st, [])
      | c :: rest2 =>
        if c = 13 || c = 10 then
          (addChildTok st (.controlWord "par" "")).map (·, rest2)
        else
          (addChildTok st (.controlWord "par" "")).map (·, rest)
    else if b = 39 then
      match readHexParam rest with
      | (param, r) =>
        (addChildTok st
          (.controlSymbol (strOfBytes [b]) (strOfBytes param))).map (·, r)
    else
      (addChildTok st (.controlSymbol (strOfBytes [b]) "")).map (·, rest)

/-- Translates the `\uN` fallback-skip loop of
`RtfStructure.parseControlWord` (src/structure.go lines 479-523).
The Go loop is a do-while over `uc`: `n` here is the number of
decrements still allowed after the current iteration (the caller
passes `(uc - 1).toNat`, so the body runs `max(uc, 1)` times).  One
iteration: stop before a `{`/`}` or at EOF; otherwise read one rune;
stop if the stream then ends; if the rune was `\\` and the next byte is
`'` consume three further bytes (stopping with everything consumed if
they run out). -/
def skipFallbackAux : Nat → List Nat → List Nat
  | n, [] => []
  | n, b :: rest =>
    if b = 123 || b = 125 then b :: rest
    else
      let (cp, rest2) := readRune b rest
      match rest2 with
      | [] => []
      | c :: rest3 =>
        if cp = 92 && c = 39 then
          match rest3 with
          | _ :: _ :: rest5 =>
            match n with
            | 0 => rest5
            | m + 1 => skipFallbackAux m rest5
          | _ => []
        else
          match n with
          | 0 => c :: rest3
          | m + 1 => skipFallbackAux m (c :: rest3)

/-- The fallback skip for a given `uc` value (top of the `uc` stack):
the Go loop body always runs at least once and decrements `uc` each
full iteration, stopping when it reaches 0. -/
def skipFallback (uc : Int) (s : List Nat) : List Nat :=
  skipFallbackAux (uc - 1).toNat s

/-- The lexical part of `RtfStructure.parseControlWord`
(src/structure.go lines 374-434): greedily read `[A-Za-z]+`, an
optional `-`, an optional digit run, and one optional delimiting
space.  Returns the word, the raw parameter string, and the remaining
stream. -/
def cwScan (s : List Nat) : String × String × List Nat :=
  let word := s.takeWhile (fun b => ByteIsAsciiLetter b)
  let s1 := s.dropWhile (fun b => ByteIsAsciiLetter b)
  let signAndRest : List Nat × List Nat :=
    match s1 with
    | b :: rest => if b = 45 then ([45], rest) else ([], s1)
    | [] => ([], [])
  let digits := signAndRest.2.takeWhile (fun b => ByteIsDigit b)
  let s3 := signAndRest.2.dropWhile (fun b => ByteIsDigit b)
  let s4 :=
    match s3 with
    | b :: rest => if b = 32 then rest else s3
    | [] => []
  (strOfBytes word, strOfBytes (signAndRest.1 ++ digits), s4)

/-- Translates `RtfStructure.parseControlWord` (src/structure.go lines
360-529), applied to the stream just after the backslash: scan the
word and parameter; `\ucN` overwrites the top of the `uc` stack with
the numeric parameter (Go panics via `uc[len-1]` if the stack is
empty — `none`); `\uN` runs the fallback skip over the raw stream
using the top of the `uc` stack (same panic on an empty stack);
finally the control word (with its raw parameter string) is appended
to the current group. -/
def parseControlWordTok (st : TokState) (s : List Nat) :
    Option (TokState × List Nat) :=
  match cwScan s with
  | (wordStr, paramStr, s4) =>
    if wordStr = "uc" then
      match st.uc with
      | [] => none
      | _ :: ucRest =>
        (addChildTok { st with uc := paramValue paramStr :: ucRest }
          (.controlWord wordStr paramStr)).map (fun st2 => (st2, s4))
    else if wordStr = "u" then
      match st.uc with
      | [] => none
      | u :: _ =>
        (addChildTok st (.controlWord wordStr paramStr)).map
          (fun st2 => (st2, skipFallback u s4))
    else
      (addChildTok st (.controlWord wordStr paramStr)).map
        (fun st2 => (st2, s4))

/-- Translates `RtfStructure.parseControl` (src/structure.go lines
251-277): peek the byte after the backslash; EOF returns silently; a
letter starts a control word, anything else a control symbol. -/
def parseControlTok (st : TokState) (s : List Nat) :
    Option (TokState × List Nat) :=
  match s with
  | [] => some (st, [])
  | c :: _ =>
    if ByteIsAsciiLetter c then parseControlWordTok st s
    else parseControlSymbolTok st s

/-- Translates the `Parse` loop of `RtfStructure` (src/structure.go
lines 77-117), fuel-indexed (any fuel exceeding the stream length is
enough, since every iteration consumes at least one byte): read a
byte; stop once the root group has been closed (`currentGroup == nil
&& Root != nil`); dispatch `{`, `}`, `\\` and text.  `none` models a Go
nil-pointer or out-of-range panic in a handler. -/
def parseLoop : Nat → TokState → List Nat → Option TokState
  | 0, st, _ => some st
  | _ + 1, st, [] => some st
  | fuel + 1, st, b :: rest =>
    if st.rootStarted && st.stack.isEmpty then some st
    else if b = 123 then
      match startGroupTok st with
      | some st2 => parseLoop fuel st2 rest
      | none => none
    else if b = 125 then
      match endGroupTok st with
      | some st2 => parseLoop fuel st2 rest
      | none => none
    else if b = 92 then
      match parseControlTok st rest with
      | some (st2, s2) => parseLoop fuel st2 s2
      | none => none
    else
      match parseTextTok st (b :: rest) with
      | some (st2, s2) => parseLoop fuel st2 s2
      | none => none

/-- The initial tokenizer state: no root, no open group, empty `uc`
stack. -/
def initTokState : TokState :=
  { rootStarted := false, stack := [], root := none, uc := [] }

/-- Translates `RtfStructure.Parse` on a byte slice
(`ParseBytes`): run the loop from the initial state with sufficient
fuel. -/
def tokenize (s : List Nat) : Option TokState :=
  parseLoop (s.length + 1) initTokState s

/-- A single-quote as a Go string (written via bytes to keep literals
simple). -/
def singleQuote : String := strOfBytes [39]

/-! ## Encapsulation detection (src/structure.go lines 562-603) -/

/-- Translates the shared loop shape of `RtfStructure.IsHtmlEncapsulated`
and `RtfStructure.IsTextEncapsulated` (src/structure.go): an unbounded
outer `for` whose body iterates over all of the root's children
(returning `true` at a control word equal to `word`, incrementing
`idx` per child) and which exits with `false` only when `idx > 10`
after a full pass.  The Go loop has no other exit, so it is modeled
with fuel counting outer passes; `none` means the loop is still
running when the fuel ends — for a fixed children list the result for
every fuel is `none` exactly when the Go loop never terminates. -/
def encapsulationScan (word : String) :
    Nat → Nat → List rtfElement → Option Bool
  | 0, _, _ => none
  | fuel + 1, idx, children =>
    if children.any (fun e =>
        match e with
        | .controlWord w _ => w = word
        | _ => false) then
      some true
    else if idx + children.length > 10 then some false
    else encapsulationScan word fuel (idx + children.length) children

/-- Translates `RtfStructure.IsHtmlEncapsulated` (src/structure.go
lines 562-581), fuel-indexed. -/
def IsHtmlEncapsulated (children : List rtfElement) (fuel : Nat) :
    Option Bool :=
  encapsulationScan "fromhtml" fuel 0 children

/-- Translates `RtfStructure.IsTextEncapsulated` (src/structure.go
lines 584-603), fuel-indexed. -/
def IsTextEncapsulated (children : List rtfElement) (fuel : Nat) :
    Option Bool :=
  encapsulationScan "fromtext" fuel 0 children

/-- A root whose 12th top-level token (index 11) is `\fromhtml`: the
first ten tokens contain no `fromhtml`. -/
def c2children : List rtfElement :=
  [.controlWord "rtf" "1", .controlWord "ansi" "", .text [97],
   .text [98], .text [99], .text [100], .text [101], .text [102],
   .text [103], .text [104], .text [105], .controlWord "fromhtml" "1"]

/-! ## Stack balance in the tokenizer (C6) -/

/-- States reachable by the tokenizer: the `uc` stack always has
exactly one frame per currently open group, and before the first `{`
both are empty. -/
def TokInv (st : TokState) : Prop :=
  st.uc.length = st.stack.length ∧
  (st.rootStarted = false → st.stack = [] ∧ st.uc = [])

/-! ## HTML-encapsulated interpreter (src/unnamed/part_001) -/

/-- A Go `map[string]string` as an association list (insertion order;
`mapSet` replaces in place or appends). -/
def mapSet : List (String × String) → String → String →
    List (String × String)
  | [], k, v => [(k, v)]
  | (k0, v0) :: rest, k, v =>
    if k0 = k then (k, v) :: rest else (k0, v0) :: mapSet rest k v

def mapGet (m : List (String × String)) (k : String) : Option String :=
  (m.find? (fun kv => kv.1 = k)).map (fun kv => kv.2)

/-- The character-property map `rtfState` (src/unnamed/part_001 lines
60-73); `NewRtfState` starts empty (the default font/size entries are
commented out in the source). -/
structure rtfState where
  states : List (String × String)
  deriving DecidableEq, Repr

def NewRtfState : rtfState := ⟨[]⟩

/-- Translates `rtfState.copy` (src/unnamed/part_001 lines 80-88).
The Go loop is `for i, v := range c1.states { c1.states[i] = v }` —
it ranges over the FRESH state `c1`, not over the receiver `c`, so
the result is always the empty state, never a copy of `c`. -/
def rtfState.copy (_c : rtfState) : rtfState :=
  let c1 := NewRtfState
  ⟨c1.states.foldl (fun acc kv => mapSet acc kv.1 kv.2) c1.states⟩

/-- Translates `rtfState.stateExists` (src/unnamed/part_001). -/
def rtfState.stateExists (c : rtfState) (word : String) : Bool :=
  (mapGet c.states word).isSome

/-- Translates `rtfState.stateValue` (src/unnamed/part_001): the entry
or the empty string. -/
def rtfState.stateValue (c : rtfState) (word : String) : String :=
  (mapGet c.states word).getD ""

/-- Translates `DetectWordState` (src/unnamed/part_001 lines 666-692):
scope and value-type of the state control words; everything else gets
the empty defaults. -/
def DetectWordState (word : String) : String × String :=
  if word = "htmlrtf" then ("other", "flag")
  else if word = "b" ∨ word = "i" ∨ word = "v" ∨ word = "ul" ∨
      word = "uldone" ∨ word = "strike" ∨ word = "super" then
    ("style", "flag")
  else if word = "f" ∨ word = "fs" ∨ word = "chcfpat" ∨ word = "cf" ∨
      word = "cb" ∨ word = "chcbpat" then
    ("style", "value")
  else ("", "")

/-- A font table entry (src/unnamed/part_001 lines 53-58); Go zero
values. -/
structure rtfFontTableItem where
  charsetIndex : Int
  familyCode : String
  familyName : String
  familyAlternativeName : String
  deriving DecidableEq, Repr

def defaultFontItem : rtfFontTableItem := ⟨0, "", "", ""⟩

/-- An RGB color (src/unnamed/part_001 lines 143-147). -/
structure rtfColor where
  r : Int
  g : Int
  b : Int
  deriving DecidableEq, Repr

/-- A Go `map[int]*rtfFontTableItem` as an association list. -/
def intMapSet : List (Int × rtfFontTableItem) → Int → rtfFontTableItem →
    List (Int × rtfFontTableItem)
  | [], k, v => [(k, v)]
  | (k0, v0) :: rest, k, v =>
    if k0 = k then (k, v) :: rest else (k0, v0) :: intMapSet rest k v

/-- Mutation through the Go map pointer: update the entry only when
the key is present (`if ftItem, ok := ...; ok`). -/
def intMapUpdate (m : List (Int × rtfFontTableItem)) (k : Int)
    (f : rtfFontTableItem → rtfFontTableItem) :
    List (Int × rtfFontTableItem) :=
  m.map (fun kv => if kv.1 = k then (kv.1, f kv.2) else kv)

/-- The interpreter state: the fields of
`rtfHtmlEncapsulatedInterpreter` (src/unnamed/part_001 lines 27-50)
that its methods read or write (`groupPreviousState` is declared in
the source but never used). -/
structure HtmlInterp where
  content : List Nat
  insideHtmlTagGroup : Int
  rtfEncoding : String
  defaultFont : Int
  fontTable : List (Int × rtfFontTableItem)
  colorTable : List rtfColor
  styleTag : String
  groupsInitialStates : List rtfState
  groupCurrentState : rtfState
  styleTagOpened : Int
  bodyStarted : Bool
  bodyStopped : Bool
  deriving DecidableEq, Repr

/-- A Go string to bytes (ASCII contents only in the source). -/
def strToBytes (s : String) : List Nat :=
  s.data.map Char.toNat

/-- The codepage map `rtfEncodeCodePageMap` (src/utils.go lines
31-68). -/
def rtfEncodeCodePageMap : List (String × String) :=
  [("ansi", "CP1252"), ("mac", "MAC"), ("pc", "CP437"), ("pca", "CP850"),
   ("437", "CP437"), ("708", "ASMO-708"), ("819", "CP819"),
   ("850", "CP850"), ("852", "CP852"), ("860", "CP860"), ("862", "CP862"),
   ("863", "CP863"), ("864", "CP864"), ("865", "CP865"), ("866", "CP866"),
   ("874", "CP874"), ("932", "CP932"), ("936", "CP936"), ("949", "CP949"),
   ("950", "CP950"), ("1250", "CP1250"), ("1251", "CP1251"),
   ("1252", "CP1252"), ("1253", "CP1253"), ("1254", "CP1254"),
   ("1255", "CP1255"), ("1256", "CP1256"), ("1257", "CP1257"),
   ("1258", "CP1258"), ("1361", "CP1361")]

/-- Translates `GetEncodingFromCodepage` (src/utils.go): the map entry
or, on a miss, the empty string (the interpreter discards the error:
`p.rtfEncoding, _ = GetEncodingFromCodepage(...)`). -/
def GetEncodingFromCodepage (code : String) : String :=
  ((rtfEncodeCodePageMap.find? (fun kv => kv.1 = code)).map
    (fun kv => kv.2)).getD ""

/-- Go `GetIntParameter` (src/unnamed/part_000 lines 192-201): default
1 for an empty or unparsable parameter — the same fallback as the
tokenizer's parameter conversion. -/
def GetIntParameter (parameter : String) : Int :=
  paramValue parameter

/-- Translates `updateState` (src/unnamed/part_001 lines 537-564): a
flag-typed word stores OFF exactly for the parameter string `0` and ON
otherwise; a value-typed word stores the raw parameter; a word of any
other type stores the empty string. -/
def updateState (p : HtmlInterp) (word value : String) : HtmlInterp :=
  let stateValueType := (DetectWordState word).2
  let stateValue :=
    if stateValueType = "flag" then (if value = "0" then "0" else "1")
    else if stateValueType = "value" then value
    else ""
  { p with groupCurrentState :=
      ⟨mapSet p.groupCurrentState.states word stateValue⟩ }

/-- The `htmlrtf` suppression test used by the token handlers
(src/unnamed/part_001): the state exists and is ON. -/
def htmlrtfOn (p : HtmlInterp) : Prop :=
  p.groupCurrentState.stateExists "htmlrtf" = true ∧
  p.groupCurrentState.stateValue "htmlrtf" = "1"

instance (p : HtmlInterp) : Decidable (htmlrtfOn p) := by
  unfold htmlrtfOn
  infer_instance

/-- Go `strconv.ParseInt(s, 16, 16)` as the interpreter uses it on
quote parameters: at least one character, all hexadecimal digits. -/
def parseHex16 (s : String) : Option Nat :=
  if s.data ≠ [] && s.data.all (fun c => IsRealHexDigit c.toNat) then
    some (s.data.foldl (fun acc c =>
      acc * 16 +
        (if c.toNat ≤ 57 then c.toNat - 48
         else if c.toNat ≤ 70 then c.toNat - 55
         else c.toNat - 87)) 0)
  else none

/-- Go `binary.LittleEndian.PutUint16` followed by
`bytes.TrimRight(b, "\x00")` on a value below 65536. -/
def hexParamBytes (v : Nat) : List Nat :=
  if v / 256 = 0 then (if v % 256 = 0 then [] else [v % 256])
  else [v % 256, v / 256]

/-- Translates `rtfHtmlEncapsulatedInterpreter.parseText`
(src/unnamed/part_001 lines 642-654): suppressed entirely while
`htmlrtf` is ON; otherwise the decoded bytes are appended to the
output.  `conv` is the external `ConvertToUtf8` collaborator. -/
def parseTextI (conv : List Nat → String → List Nat) (p : HtmlInterp)
    (content : List Nat) : HtmlInterp :=
  if htmlrtfOn p then p
  else { p with content := p.content ++ conv content p.rtfEncoding }

/-- Translates `rtfHtmlEncapsulatedInterpreter.parseControlSymbol`
(src/unnamed/part_001 lines 492-529): suppressed entirely while
`htmlrtf` is ON; `\'HH` decodes the hex parameter into a byte and
appends its decoded form; inside an htmltag destination `~` and `_`
append their HTML entities. -/
def parseControlSymbolI (conv : List Nat → String → List Nat)
    (p : HtmlInterp) (symbol parameter : String) : HtmlInterp :=
  if htmlrtfOn p then p
  else
    let p1 :=
      if symbol = singleQuote then
        match parseHex16 parameter with
        | some v =>
          { p with content :=
              p.content ++ conv (hexParamBytes v) p.rtfEncoding }
        | none => p
      else p
    if p1.insideHtmlTagGroup > 0 then
      if symbol = "~" then
        { p1 with content := p1.content ++ strToBytes "&nbsp;" }
      else if symbol = "_" then
        { p1 with content := p1.content ++ strToBytes "&shy;" }
      else p1
    else p1

/-- Translates `rtfHtmlEncapsulatedInterpreter.parseControlWord`
(src/unnamed/part_001 lines 566-640): `\htmlrtf` always updates the
state; inside an htmltag destination a few words become HTML entities
and nothing else happens; outside, any word other than `\f` is
suppressed while `htmlrtf` is ON, and the remaining cases emit line
breaks or update encoding, default font, or the `f`/`fs` state. -/
def parseControlWordI (p : HtmlInterp) (word parameter : String) :
    HtmlInterp :=
  if word = "htmlrtf" then updateState p word parameter
  else if p.insideHtmlTagGroup > 0 then
    if word = "u" then
      { p with content :=
          p.content ++ strToBytes "&#" ++ strToBytes parameter ++
            strToBytes ";" }
    else if word = "lquote" then
      { p with content := p.content ++ strToBytes "&lsquo;" }
    else if word = "rquote" then
      { p with content := p.content ++ strToBytes "&rsquo;" }
    else if word = "ldblquote" then
      { p with content := p.content ++ strToBytes "&ldquo;" }
    else if word = "rdblquote" then
      { p with content := p.content ++ strToBytes "&rdquo;" }
    else if word = "bullet" then
      { p with content := p.content ++ strToBytes "&bull;" }
    else if word = "endash" then
      { p with content := p.content ++ strToBytes "&ndash;" }
    else if word = "emdash" then
      { p with content := p.content ++ strToBytes "&mdash;" }
    else p
  else if word ≠ "f" ∧ htmlrtfOn p then p
  else if word = "line" then p
  else if word = "par" then { p with content := p.content ++ [13, 10] }
  else if word = "tab" then
    { p with content :=
        p.content ++ strToBytes "&nbsp;&nbsp;&nbsp;&nbsp;&nbsp;" }
  else if word = "deff" then
    { p with defaultFont := GetIntParameter parameter }
  else if word = "ansi" ∨ word = "mac" ∨ word = "pc" ∨ word = "pca" then
    { p with rtfEncoding := GetEncodingFromCodepage word }
  else if word = "ansicpg" then
    if GetIntParameter parameter > 0 then
      { p with rtfEncoding := GetEncodingFromCodepage parameter }
    else p
  else if word = "f" ∨ word = "fs" then updateState p word parameter
  else p

/-! ## Group predicates (src/unnamed/part_000) and group walk -/

/-- Translates `rtfGroup.CheckChildAtIndex` (src/unnamed/part_000
lines 124-137): the child at `idx` is a control symbol or control
word matching `checkWord`. -/
def CheckChildAtIndex (children : List rtfElement) (idx : Nat)
    (checkWord : String) : Bool :=
  match children[idx]? with
  | some (rtfElement.controlSymbol sym _) => sym = checkWord
  | some (rtfElement.controlWord w _) => w = checkWord
  | _ => false

/-- Translates `rtfGroup.IsDestination`. -/
def IsDestination (cs : List rtfElement) : Bool :=
  CheckChildAtIndex cs 0 "*"

/-- Translates `rtfGroup.IsFontTable`. -/
def IsFontTable (cs : List rtfElement) : Bool :=
  CheckChildAtIndex cs 0 "fonttbl"

/-- Translates `rtfGroup.IsStylesheet`. -/
def IsStylesheet (cs : List rtfElement) : Bool :=
  CheckChildAtIndex cs 0 "stylesheet"

/-- Translates `rtfGroup.IsListtables`. -/
def IsListtables (cs : List rtfElement) : Bool :=
  CheckChildAtIndex cs 0 "listtables"

/-- Translates `rtfGroup.IsInfo`. -/
def IsInfo (cs : List rtfElement) : Bool :=
  CheckChildAtIndex cs 0 "info"

/-- Translates `rtfGroup.IsFilesTable`. -/
def IsFilesTable (cs : List rtfElement) : Bool :=
  IsDestination cs && CheckChildAtIndex cs 1 "filetbl"

/-- Translates `rtfGroup.IsTrackChanges`. -/
def IsTrackChanges (cs : List rtfElement) : Bool :=
  (IsDestination cs && CheckChildAtIndex cs 1 "revtbl") ||
    CheckChildAtIndex cs 0 "revtbl"

/-- Translates `rtfGroup.IsColorTable`. -/
def IsColorTable (cs : List rtfElement) : Bool :=
  CheckChildAtIndex cs 0 "colortbl"

/-- Translates `rtfGroup.IsFontInfo`. -/
def IsFontInfo (cs : List rtfElement) : Bool :=
  CheckChildAtIndex cs 0 "f"

/-- Translates `rtfGroup.IsFontAlternative`. -/
def IsFontAlternative (cs : List rtfElement) : Bool :=
  IsDestination cs && CheckChildAtIndex cs 1 "falt"

/-- Translates `RtfStructure.IsValid` (src/structure.go lines
541-552): the root's first child is the control word `rtf` with
parameter string `1`. -/
def IsValid (children : List rtfElement) : Bool :=
  match children[0]? with
  | some (rtfElement.controlWord w par) => w = "rtf" && par = "1"
  | _ => false

/-- Trailing semicolons removed, as Go
`bytes.TrimRight(content, ";")`. -/
def trimRightSemis (bs : List Nat) : List Nat :=
  (bs.reverse.dropWhile (fun b => b = 59)).reverse

/-- Translates `parseFontInfoGroup` (src/unnamed/part_001 lines
406-447): walk the entry's children, tracking the current font index
(`\fN` creates the entry; family words, `\fcharsetN`, the first text
child and a nested `\*\falt` group fill its fields). -/
def parseFontInfoGroup (p : HtmlInterp) (cs : List rtfElement) :
    HtmlInterp :=
  let res := cs.foldl
    (fun (acc : List (Int × rtfFontTableItem) × Int) child =>
      match child with
      | .controlWord w par =>
        if w = "f" then
          (intMapSet acc.1 (GetIntParameter par) defaultFontItem,
           GetIntParameter par)
        else if w = "fnil" ∨ w = "froman" ∨ w = "fswiss" ∨
            w = "fmodern" ∨ w = "fscript" ∨ w = "fdecor" ∨
            w = "ftech" ∨ w = "fbidi" then
          (intMapUpdate acc.1 acc.2 (fun it => { it with familyCode := w }),
           acc.2)
        else if w = "fcharset" then
          (intMapUpdate acc.1 acc.2
            (fun it => { it with charsetIndex := GetIntParameter par }),
           acc.2)
        else acc
      | .text content =>
        (intMapUpdate acc.1 acc.2
          (fun it =>
            { it with familyName := strOfBytes (trimRightSemis content) }),
         acc.2)
      | .group gcs =>
        if IsFontAlternative gcs then
          match gcs[2]? with
          | some (rtfElement.text c) =>
            (intMapUpdate acc.1 acc.2
              (fun it => { it with familyAlternativeName := strOfBytes c }),
             acc.2)
          | _ => acc
        else acc
      | _ => acc)
    (p.fontTable, 0)
  { p with fontTable := res.1 }

/-- Translates `parseFontTableGroup` (src/unnamed/part_001 lines
395-405): reset the font table, then extract every nested `fontinfo`
group. -/
def parseFontTableGroup (p : HtmlInterp) (cs : List rtfElement) :
    HtmlInterp :=
  cs.foldl
    (fun acc child =>
      match child with
      | .group gcs => if IsFontInfo gcs then parseFontInfoGroup acc gcs
                      else acc
      | _ => acc)
    { p with fontTable := [] }

/-- Translates `parseColorTableGroup` (src/unnamed/part_001 lines
456-490): `\redN`, `\greenN`, `\blueN` accumulate into the current
color; each text child commits the accumulator and resets it. -/
def parseColorTableGroup (p : HtmlInterp) (cs : List rtfElement) :
    HtmlInterp :=
  if ¬ IsColorTable cs then p
  else
    let res := cs.foldl
      (fun (acc : List rtfColor × rtfColor) child =>
        match child with
        | .controlWord w par =>
          if w = "red" then (acc.1, { acc.2 with r := GetIntParameter par })
          else if w = "green" then
            (acc.1, { acc.2 with g := GetIntParameter par })
          else if w = "blue" then
            (acc.1, { acc.2 with b := GetIntParameter par })
          else acc
        | .text _ => (acc.1 ++ [acc.2], ⟨0, 0, 0⟩)
        | _ => acc)
      (p.colorTable, ⟨0, 0, 0⟩)
    { p with colorTable := res.1 }

/-- The htmltag-destination detection at the top of `parseGroup`
(src/unnamed/part_001 lines 200-219): is the group a `\*\htmltag`
destination, does it start the body (`\htmltag50` before the body has
started), does it stop it (`\htmltag58`). -/
def htmlTagInfo (bodyStarted : Bool) (cs : List rtfElement) :
    Bool × Bool × Bool :=
  if IsDestination cs then
    match cs[1]? with
    | some (rtfElement.controlWord w par) =>
      if w = "htmltag" then
        (true, !bodyStarted && decide (GetIntParameter par = 50),
         decide (GetIntParameter par = 58))
      else (false, false, false)
    | _ => (false, false, false)
  else (false, false, false)

def setBodyStopped (p : HtmlInterp) (b : Bool) : HtmlInterp :=
  if b then { p with bodyStopped := true } else p

def setBodyStarted (p : HtmlInterp) (b : Bool) : HtmlInterp :=
  if b then { p with bodyStarted := true } else p

def incHtmlTag (p : HtmlInterp) (b : Bool) : HtmlInterp :=
  if b then { p with insideHtmlTagGroup := p.insideHtmlTagGroup + 1 }
  else p

/-- The decrement with clamping at the bottom of `parseGroup`
(src/unnamed/part_001 lines 268-273). -/
def decHtmlTag (p : HtmlInterp) (b : Bool) : HtmlInterp :=
  if b then
    if p.insideHtmlTagGroup - 1 < 0 then
      { p with insideHtmlTagGroup := 0 }
    else { p with insideHtmlTagGroup := p.insideHtmlTagGroup - 1 }
  else p

/-- Group entry (src/unnamed/part_001 lines 233-239): the very first
group initializes the current state; then a copy of the current state
is pushed (the top of the stack is the LAST list element, as in the
Go slice). -/
def pushInitialState (p : HtmlInterp) : HtmlInterp :=
  let p1 :=
    if p.groupsInitialStates.isEmpty then
      { p with groupCurrentState := NewRtfState }
    else p
  { p1 with groupsInitialStates :=
      p1.groupsInitialStates ++ [p1.groupCurrentState.copy] }

/-- Group exit (src/unnamed/part_001 lines 255-259): the current state
becomes the saved top frame, which is then popped.  (Go indexes
`[len-1]` unconditionally; the walk always pushes before popping, so
the stack is nonempty here and the default is unreachable.) -/
def popInitialState (p : HtmlInterp) : HtmlInterp :=
  { p with
    groupCurrentState := p.groupsInitialStates.getLastD NewRtfState,
    groupsInitialStates := p.groupsInitialStates.dropLast }

/-- Translates `parseElement`/`parseGroup` of
`rtfHtmlEncapsulatedInterpreter` (src/unnamed/part_001 lines 178-274)
as one fuel-indexed function (structural recursion on the fuel; any
fuel at least `sizeOf` the element behaves as the unbounded Go
recursion, since every nesting level consumes one unit).  A group:
detect the htmltag destination (setting `bodyStopped` for
`\htmltag58`), bump the htmltag counter, route font/color tables to
their extractors, skip stylesheet/revtbl/info/listtables/filetbl
groups, and otherwise push a state frame, walk the children in order,
restore-and-pop, then set `bodyStarted` for `\htmltag50`; finally
decrement the htmltag counter with clamping. -/
def parseElementIF (fuel : Nat) (conv : List Nat → String → List Nat)
    (p : HtmlInterp) (e : rtfElement) : HtmlInterp :=
  match fuel with
  | 0 => p
  | fuel + 1 =>
    match e with
    | .controlSymbol sym par => parseControlSymbolI conv p sym par
    | .controlWord w par => parseControlWordI p w par
    | .text content => parseTextI conv p content
    | .group cs =>
      match htmlTagInfo p.bodyStarted cs with
      | (isTag, isStart, isStop) =>
        let p1 := incHtmlTag (setBodyStopped p isStop) isTag
        let p2 :=
          if IsFontTable cs then parseFontTableGroup p1 cs
          else if IsColorTable cs then parseColorTableGroup p1 cs
          else if IsStylesheet cs || IsTrackChanges cs || IsInfo cs ||
              IsListtables cs || IsFilesTable cs then p1
          else
            setBodyStarted
              (popInitialState
                (cs.foldl (parseElementIF fuel conv)
                  (pushInitialState p1)))
              isStart
        decHtmlTag p2 isTag

/-- The interpreter walk of a group with the given children
(`rtfHtmlEncapsulatedInterpreter.parseGroup`); any fuel at least the
nesting depth of the group reproduces the unbounded Go recursion. -/
def parseGroup (fuel : Nat) (conv : List Nat → String → List Nat)
    (p : HtmlInterp) (cs : List rtfElement) : HtmlInterp :=
  parseElementIF fuel conv p (.group cs)

/-- The interpreter entry point
`rtfHtmlEncapsulatedInterpreter.Parse` (src/unnamed/part_001 lines
159-171): fresh output, zero htmltag counter, the `IsValid` gate, then
the walk of the root group; `none` is the `errors.New` return. -/
def HtmlInterpParse (fuel : Nat) (conv : List Nat → String → List Nat)
    (styleTag : String) (rootChildren : List rtfElement) :
    Option (List Nat × HtmlInterp) :=
  if IsValid rootChildren then
    let p0 : HtmlInterp :=
      { content := [], insideHtmlTagGroup := 0, rtfEncoding := "",
        defaultFont := 0, fontTable := [], colorTable := [],
        styleTag := styleTag, groupsInitialStates := [],
        groupCurrentState := ⟨[]⟩, styleTagOpened := 0,
        bodyStarted := false, bodyStopped := false }
    let p1 := parseGroup fuel conv p0 rootChildren
    some (p1.content, p1)
  else none

/-- The identity decoder, used to instantiate the external
`ConvertToUtf8` collaborator in concrete runs. -/
def convId : List Nat → String → List Nat := fun b _ => b

/-- The interpreter state used by the concrete group-exit run: inside
one group (one pushed frame) with current character properties
`f = 2`. -/
def c1interp : HtmlInterp :=
  { content := [], insideHtmlTagGroup := 0, rtfEncoding := "",
    defaultFont := 0, fontTable := [], colorTable := [],
    styleTag := "span", groupsInitialStates := [NewRtfState],
    groupCurrentState := ⟨[("f", "2")]⟩, styleTagOpened := 0,
    bodyStarted := false, bodyStopped := false }

/-- A non-suppressed interpreter state (no `htmlrtf` entry, outside
any htmltag destination) with an empty character-property map. -/
def c3interp : HtmlInterp :=
  { content := [], insideHtmlTagGroup := 0, rtfEncoding := "",
    defaultFont := 0, fontTable := [], colorTable := [],
    styleTag := "span", groupsInitialStates := [NewRtfState],
    groupCurrentState := ⟨[]⟩, styleTagOpened := 0,
    bodyStarted := false, bodyStopped := false }

/-- The interpreter state used by the concrete suppression runs: the
`htmlrtf` flag ON, outside any htmltag destination. -/
def c4interp : HtmlInterp :=
  { content := [], insideHtmlTagGroup := 0, rtfEncoding := "",
    defaultFont := 0, fontTable := [], colorTable := [],
    styleTag := "span", groupsInitialStates := [NewRtfState],
    groupCurrentState := ⟨[("htmlrtf", "1")]⟩, styleTagOpened := 0,
    bodyStarted := false, bodyStopped := false }

/-- The interpreter state after the concrete parse of a minimal valid
document (it equals the initial state: the walk pushed and popped one
frame and emitted nothing). -/
def c6interp0 : HtmlInterp :=
  { content := [], insideHtmlTagGroup := 0, rtfEncoding := "",
    defaultFont := 0, fontTable := [], colorTable := [],
    styleTag := "span", groupsInitialStates := [],
    groupCurrentState := ⟨[]⟩, styleTagOpened := 0,
    bodyStarted := false, bodyStopped := false }

/-! ## Theorems -/

/-- The copy loop never changes the size of the output buffer. -/
theorem copyRef_size : ∀ (cnt : Nat) (dst : Array Nat) (offset : Int)
    (out : Nat) (dst' : Array Nat) (out' : Nat),
    copyRef dst offset out cnt = some (dst', out') → dst'.size = dst.size := by
  intro cnt
  induction cnt with
  | zero =>
    intro dst offset out dst' out' h
    simp only [copyRef, Option.some.injEq, Prod.mk.injEq] at h
    rw [← h.1]
  | succ n ih =>
    intro dst offset out dst' out' h
    rw [copyRef] at h
    split at h
    · have := ih _ _ _ _ _ h
      simpa using this
    · exact absurd h (by simp)

theorem decodePost_trans {res : Except DecompressError (Array Nat)}
    {dst2 dst : Array Nat} (h : decodePost res dst2)
    (hs : dst2.size = dst.size) : decodePost res dst := by
  rcases h with h | ⟨r, hr, hsz⟩
  · exact Or.inl h
  · exact Or.inr ⟨r, hr, hsz.trans hs⟩

/-- Whatever state the decode loop is started in, it either panics on
an out-of-range index or returns a buffer whose size equals the size
of the buffer it was given; in particular it never returns one of the
integrity errors. -/
theorem decodeLoop_post (src : List Nat) :
    ∀ (n : Nat) (dst : Array Nat) (inPos out flagCount flags : Nat),
    src.length - inPos ≤ n →
    decodePost (decodeLoop src dst inPos out flagCount flags) dst := by
  intro n
  induction n with
  | zero =>
    intro dst inPos out flagCount flags hn
    rw [decodeLoop.eq_def]
    repeat' split
    all_goals
      first
      | exact Or.inl rfl
      | exact Or.inr ⟨dst, rfl, rfl⟩
      | omega
  | succ n ih =>
    intro dst inPos out flagCount flags hn
    rw [decodeLoop.eq_def]
    repeat' split
    all_goals
      first
      | exact Or.inl rfl
      | exact Or.inr ⟨dst, rfl, rfl⟩
      | exact decodePost_trans (ih _ _ _ _ _ (by omega)) (by simp)
      | (rename_i dst' out' hcopy
         exact decodePost_trans (ih _ _ _ _ _ (by omega))
           (copyRef_size _ _ _ _ _ _ hcopy))

/-- Helper: the decompression output buffer for `src` has size
`207 + uncompressedSize`. -/
theorem decompress_dst_size (u : Nat) :
    (COMPRESSED_RTF_PREBUF ++ List.replicate u 0).toArray.size =
      COMPRESSED_RTF_PREBUF.length + u := by
  simp

/-- Whenever `Decompress` succeeds on a stream with the compressed
magic, the returned list has exactly the header's `uncompressedSize`
(field `getU32 src 4`) bytes. -/
theorem Decompress_ok_length (src res : List Nat)
    (h : Decompress src = .ok res)
    (hm : getU32 src 8 = MAGIC_COMPRESSED) :
    res.length = getU32 src 4 := by
  unfold Decompress at h
  repeat' split at h
  all_goals try exact Except.noConfusion h
  · -- uncompressed-magic branch: contradicts hm
    rename_i hu
    rw [hm] at hu
    exact absurd hu (by decide)
  · -- decode branch
    rename_i d hd
    have hsize : d.size = COMPRESSED_RTF_PREBUF.length + getU32 src 4 := by
      rcases decodeLoop_post src src.length
          (COMPRESSED_RTF_PREBUF ++ List.replicate (getU32 src 4) 0).toArray
          16 COMPRESSED_RTF_PREBUF.length 0 0 (by omega) with hp | ⟨r, hr, hs⟩
      · rw [hd] at hp
        exact Except.noConfusion hp
      · rw [hd] at hr
        cases hr
        rw [hs, decompress_dst_size]
    simp only [Except.ok.injEq] at h
    rw [← h, List.length_drop]
    have htl : d.toList.length = d.size := rfl
    rw [htl, hsize]
    omega

/-- A back-reference whose absolute offset equals the current write
position terminates the decode loop at that point, returning the
buffer built so far (flag-byte-reload variant of the loop; the two
raw bytes are `src[inPos+1]`, `src[inPos+2]`). -/
theorem decodeLoop_sentinel (src : List Nat) (dst : Array Nat)
    (inPos out flagCount flags : Nat)
    (hflag : flagCount % 8 = 0)
    (hin : inPos + 2 < src.length)
    (hodd : src[inPos] % 2 = 1)
    (habs : refAbs out (refOffset src[inPos + 1] src[inPos + 2]) = out) :
    decodeLoop src dst inPos out flagCount flags = .ok dst := by
  rw [decodeLoop.eq_def]
  rw [if_pos (by simp [hflag])]
  rw [dif_pos (by omega : inPos < src.length)]
  rw [if_neg (by simp [hodd])]
  rw [dif_pos hin]
  rw [if_pos (le_of_eq habs.symm)]
  rw [if_pos habs]

/-- A back-reference whose absolute offset equals the current write
position terminates the decode loop at that point, returning the
buffer built so far (mid-flag-group variant of the loop, entered when
`flagCount % 8 ≠ 0`: the flag register is shifted, `flags >>> 1`, its
low bit marks the back-reference, and the two raw bytes are
`src[inPos]`, `src[inPos+1]`). -/
theorem decodeLoop_sentinel_midflags (src : List Nat) (dst : Array Nat)
    (inPos out flagCount flags : Nat)
    (hflag : flagCount % 8 ≠ 0)
    (hbit : flags >>> 1 % 2 = 1)
    (hin : inPos + 1 < src.length)
    (habs : refAbs out (refOffset src[inPos] src[inPos + 1]) = out) :
    decodeLoop src dst inPos out flagCount flags = .ok dst := by
  rw [decodeLoop.eq_def]
  rw [if_neg (by simp [hflag])]
  rw [if_neg (by simp [hbit])]
  rw [dif_pos hin]
  rw [if_pos (le_of_eq habs.symm)]
  rw [if_pos habs]

/-- Characterization of every returned error of `Decompress`: each of
the four integrity errors is returned exactly when its check fails (in
source order: header length, size field, magic, CRC); when all
applicable checks pass, `Decompress` never returns an integrity error
(it either succeeds or the Go code panics on an out-of-range index).
The CRC reference value is `calculateCRC32 src 16 (len-16)`, the
table-driven CRC over bytes `[16, end)` built from polynomial
`0xEDB88320` with `crc` starting at 0 and returned without any final
inversion. -/
theorem Decompress_error_characterization (src : List Nat) :
    (Decompress src = .error .invalidHeader ↔ src.length < 16) ∧
    (Decompress src = .error .sizeMismatch ↔
      16 ≤ src.length ∧ getU32 src 0 ≠ src.length - 4) ∧
    (Decompress src = .error .unknownMagic ↔
      16 ≤ src.length ∧ getU32 src 0 = src.length - 4 ∧
      getU32 src 8 ≠ MAGIC_UNCOMPRESSED ∧ getU32 src 8 ≠ MAGIC_COMPRESSED) ∧
    (Decompress src = .error .crcMismatch ↔
      16 ≤ src.length ∧ getU32 src 0 = src.length - 4 ∧
      getU32 src 8 ≠ MAGIC_UNCOMPRESSED ∧ getU32 src 8 = MAGIC_COMPRESSED ∧
      getU32 src 12 ≠ calculateCRC32 src 16 (src.length - 16)) := by
  by_cases h1 : src.length < 16
  · have hD : Decompress src = .error .invalidHeader := by
      unfold Decompress
      rw [if_pos h1]
    refine ⟨?_, ?_, ?_, ?_⟩ <;> rw [hD] <;> simp <;> omega
  · by_cases h2 : getU32 src 0 = src.length - 4
    · by_cases h3 : getU32 src 8 = MAGIC_UNCOMPRESSED
      · have hD : Decompress src = .ok src := by
          unfold Decompress
          rw [if_neg h1, if_neg (by simp [h2]), if_pos h3]
        refine ⟨?_, ?_, ?_, ?_⟩ <;> rw [hD] <;> simp [h1, h2, h3]
      · by_cases h4 : getU32 src 8 = MAGIC_COMPRESSED
        · by_cases h5 : getU32 src 12 = calculateCRC32 src 16 (src.length - 16)
          · rcases decodeLoop_post src src.length
                (COMPRESSED_RTF_PREBUF ++
                  List.replicate (getU32 src 4) 0).toArray
                16 COMPRESSED_RTF_PREBUF.length 0 0 (by omega)
              with hp | ⟨r, hr, hs⟩
            · have hD : Decompress src = .error .panicOutOfBounds := by
                unfold Decompress
                rw [if_neg h1, if_neg (by simp [h2]), if_neg h3, if_pos h4,
                  if_neg (by simp [h5]), hp]
              refine ⟨?_, ?_, ?_, ?_⟩ <;> rw [hD] <;>
                simp [h1, h2, h3, h4, h5]
            · have hD : Decompress src =
                  .ok (r.toList.drop COMPRESSED_RTF_PREBUF.length) := by
                unfold Decompress
                rw [if_neg h1, if_neg (by simp [h2]), if_neg h3, if_pos h4,
                  if_neg (by simp [h5]), hr]
              refine ⟨?_, ?_, ?_, ?_⟩ <;> rw [hD] <;>
                simp [h1, h2, h3, h4, h5]
          · have hD : Decompress src = .error .crcMismatch := by
              unfold Decompress
              rw [if_neg h1, if_neg (by simp [h2]), if_neg h3, if_pos h4,
                if_pos (by simp [h5])]
            refine ⟨?_, ?_, ?_, ?_⟩ <;> rw [hD] <;>
              simp [h1, h2, h3, h4, h5] <;> omega
        · have hD : Decompress src = .error .unknownMagic := by
            unfold Decompress
            rw [if_neg h1, if_neg (by simp [h2]), if_neg h3, if_neg h4]
          refine ⟨?_, ?_, ?_, ?_⟩ <;> rw [hD] <;>
            simp [h1, h2, h3, h4] <;> omega
    · have hD : Decompress src = .error .sizeMismatch := by
        unfold Decompress
        rw [if_neg h1, if_pos (by simp [h2])]
      refine ⟨?_, ?_, ?_, ?_⟩ <;> rw [hD] <;> simp [h1, h2] <;> omega

/-- Evaluating `Decompress` on `c7src`: the sentinel stops decoding
immediately and the preamble is stripped, leaving the empty output. -/
theorem Decompress_c7src : Decompress c7src = .ok [] := by
  unfold Decompress
  rw [if_neg (by decide), if_neg (by decide), if_neg (by decide),
    if_pos (by decide), if_neg (by decide)]
  rw [decodeLoop_sentinel c7src _ 16 COMPRESSED_RTF_PREBUF.length 0 0
    (by decide) (by decide) (by decide) (by decide)]
  rfl

/-- C7: in `Decompress` on a stream with the compressed magic, a
back-reference whose absolute offset (low 12 bits mapped into the
current 4096-byte block of the write position, `refAbs`) equals the
current write position is a sentinel that terminates decoding at that
point — in both shapes of the loop: at a flag-byte reload
(`flagCount % 8 = 0`, raw bytes `src[inPos+1]`, `src[inPos+2]`) and
mid flag group (`flagCount % 8 ≠ 0`, flag register shifted and its low
bit set, raw bytes `src[inPos]`, `src[inPos+1]`) — and the returned
output, with the 207-byte preamble stripped, has length exactly the
header's `uncompressedSize` field (`getU32 src 4`). -/
theorem c7_sentinel_and_output_length :
    COMPRESSED_RTF_PREBUF.length = 207 ∧
    (∀ (src : List Nat) (dst : Array Nat) (inPos out flagCount flags : Nat)
      (hflag : flagCount % 8 = 0) (hin : inPos + 2 < src.length),
      src[inPos] % 2 = 1 →
      refAbs out (refOffset src[inPos + 1] src[inPos + 2]) = out →
      decodeLoop src dst inPos out flagCount flags = .ok dst) ∧
    (∀ (src : List Nat) (dst : Array Nat) (inPos out flagCount flags : Nat)
      (hflag : flagCount % 8 ≠ 0) (hbit : flags >>> 1 % 2 = 1)
      (hin : inPos + 1 < src.length),
      refAbs out (refOffset src[inPos] src[inPos + 1]) = out →
      decodeLoop src dst inPos out flagCount flags = .ok dst) ∧
    (∀ (src res : List Nat), Decompress src = .ok res →
      getU32 src 8 = MAGIC_COMPRESSED → res.length = getU32 src 4) :=
  ⟨rfl,
   fun src dst inPos out flagCount flags hflag hin hodd habs =>
     decodeLoop_sentinel src dst inPos out flagCount flags hflag hin hodd habs,
   fun src dst inPos out flagCount flags hflag hbit hin habs =>
     decodeLoop_sentinel_midflags src dst inPos out flagCount flags hflag hbit
       hin habs,
   fun src res h hm => Decompress_ok_length src res h hm⟩

/-- Witness for C7 at concrete states: on the stream `c7src` the first
element after the header is a self-referencing back-reference at a
flag-byte reload, the loop stops there, and the returned output is
empty, matching `uncompressedSize = 0`; and mid flag group
(`flagCount = 1`, shifted flag register `2 >>> 1 = 1` marking a
back-reference), the raw bytes `[13, 0]` encode offset `208`, equal to
the write position `208`, and the loop stops there too. -/
theorem c7_sentinel_and_output_length_witness :
    decodeLoop c7src COMPRESSED_RTF_PREBUF.toArray 16
      COMPRESSED_RTF_PREBUF.length 0 0 = .ok COMPRESSED_RTF_PREBUF.toArray ∧
    decodeLoop [13, 0] ((List.replicate 209 0).toArray) 0 208 1 2 =
      .ok ((List.replicate 209 0).toArray) ∧
    ([] : List Nat).length = getU32 c7src 4 :=
  ⟨c7_sentinel_and_output_length.2.1 c7src COMPRESSED_RTF_PREBUF.toArray 16
     COMPRESSED_RTF_PREBUF.length 0 0 (by decide) (by decide) (by decide)
     (by decide),
   c7_sentinel_and_output_length.2.2.1 [13, 0]
     ((List.replicate 209 0).toArray) 0 208 1 2 (by decide) (by decide)
     (by decide) (by decide),
   c7_sentinel_and_output_length.2.2.2 c7src [] Decompress_c7src (by decide)⟩

/-- C8: `Decompress` returns an integrity error exactly when the
corresponding check fails (input shorter than 16 bytes; size field
different from `len - 4`; magic neither `0x414c454d` nor
`0x75465a4c`; for the compressed magic, CRC field different from the
table CRC of bytes `[16, end)`); when all applicable checks pass, none
of these errors is returned. -/
theorem c8_error_exactly_when_check_fails (src : List Nat) :
    (Decompress src = .error .invalidHeader ↔ src.length < 16) ∧
    (Decompress src = .error .sizeMismatch ↔
      16 ≤ src.length ∧ getU32 src 0 ≠ src.length - 4) ∧
    (Decompress src = .error .unknownMagic ↔
      16 ≤ src.length ∧ getU32 src 0 = src.length - 4 ∧
      getU32 src 8 ≠ MAGIC_UNCOMPRESSED ∧ getU32 src 8 ≠ MAGIC_COMPRESSED) ∧
    (Decompress src = .error .crcMismatch ↔
      16 ≤ src.length ∧ getU32 src 0 = src.length - 4 ∧
      getU32 src 8 ≠ MAGIC_UNCOMPRESSED ∧ getU32 src 8 = MAGIC_COMPRESSED ∧
      getU32 src 12 ≠ calculateCRC32 src 16 (src.length - 16)) ∧
    (16 ≤ src.length → getU32 src 0 = src.length - 4 →
      (getU32 src 8 = MAGIC_UNCOMPRESSED ∨
        (getU32 src 8 = MAGIC_COMPRESSED ∧
         getU32 src 12 = calculateCRC32 src 16 (src.length - 16))) →
      Decompress src ≠ .error .invalidHeader ∧
      Decompress src ≠ .error .sizeMismatch ∧
      Decompress src ≠ .error .unknownMagic ∧
      Decompress src ≠ .error .crcMismatch) := by
  obtain ⟨hi, hs, hu, hc⟩ := Decompress_error_characterization src
  refine ⟨hi, hs, hu, hc, ?_⟩
  intro hlen hsize hmagic
  refine ⟨?_, ?_, ?_, ?_⟩
  · simp only [ne_eq, hi]; omega
  · simp only [ne_eq, hs]; intro hx; exact hx.2 hsize
  · simp only [ne_eq, hu]
    rcases hmagic with hm | hm
    · intro hx; exact hx.2.2.1 hm
    · intro hx; exact hx.2.2.2 hm.1
  · simp only [ne_eq, hc]
    rcases hmagic with hm | hm
    · intro hx; exact hx.2.2.1 hm
    · intro hx; exact hx.2.2.2.2 hm.2

/-- Witness for C8: the empty input fails the header-length check, and
the valid stream `c7src` is rejected by none of the integrity
checks. -/
theorem c8_error_exactly_when_check_fails_witness :
    Decompress ([] : List Nat) = .error .invalidHeader ∧
    Decompress c7src ≠ .error .crcMismatch :=
  ⟨(c8_error_exactly_when_check_fails []).1.mpr (by decide),
   ((c8_error_exactly_when_check_fails c7src).2.2.2.2 (by decide) (by decide)
     (Or.inr ⟨by decide, by decide⟩)).2.2.2⟩

/-- C9 (code bug): `c9src` passes the header, size and CRC checks, yet
the decode loop's very first read `src[16]` is out of range: the Go
code panics (modeled `.error .panicOutOfBounds`) instead of returning
output bytes or an error value, so `Decompress` is not total on
arbitrary inputs. -/
theorem c9_passes_checks_but_panics :
    c9src.length = 16 ∧
    getU32 c9src 0 = c9src.length - 4 ∧
    getU32 c9src 8 = MAGIC_COMPRESSED ∧
    getU32 c9src 12 = calculateCRC32 c9src 16 (c9src.length - 16) ∧
    Decompress c9src = .error .panicOutOfBounds := by
  refine ⟨by decide, by decide, by decide, by decide, ?_⟩
  unfold Decompress
  rw [if_neg (by decide), if_neg (by decide), if_neg (by decide),
    if_pos (by decide), if_neg (by decide)]
  rw [decodeLoop.eq_def]
  rfl

/-- On a root with no children the scan never terminates: no pass can
return `true`, and `idx` never grows past 10. -/
theorem encapsulationScan_nil (word : String) :
    ∀ fuel idx, idx ≤ 10 → encapsulationScan word fuel idx [] = none := by
  intro fuel
  induction fuel with
  | zero => intro idx _; rfl
  | succ n ih =>
    intro idx hidx
    have hcond : ¬ (idx + ([] : List rtfElement).length > 10) := by
      simp only [List.length_nil, Nat.add_zero]
      omega
    unfold encapsulationScan
    rw [if_neg (by simp), if_neg hcond]
    exact ih idx hidx

/-- C2 (code bug): the encapsulation scan is not bounded by the first
10 tokens and does not always terminate.  On a childless root both
`IsHtmlEncapsulated` and `IsTextEncapsulated` loop forever (no fuel
returns an answer), and a `\fromhtml` that is the 12th top-level token
— beyond the first 10 the claim allows — still yields `true`. -/
theorem c2_scan_unbounded_and_nonterminating :
    (∀ fuel, IsHtmlEncapsulated [] fuel = none) ∧
    (∀ fuel, IsTextEncapsulated [] fuel = none) ∧
    IsHtmlEncapsulated c2children 1 = some true ∧
    (∀ e, e ∈ c2children.take 10 →
      ∀ p, e ≠ rtfElement.controlWord "fromhtml" p) := by
  refine ⟨fun fuel => encapsulationScan_nil "fromhtml" fuel 0 (by omega),
    fun fuel => encapsulationScan_nil "fromtext" fuel 0 (by omega), rfl, ?_⟩
  intro e he p
  fin_cases he <;> simp

/-- C5 (code bug): the `\uN` fallback skip, run with `uc = 1` on the
stream `\tab Q`, consumes only the backslash — the letters `tab` stay
in the stream (the whole control word should have been one consumed
unit, leaving ` Q`); and with `uc = 0` it still consumes one character
(`A` of `AB`) although it should consume none.  The last conjunct
shows the same behavior through `parseControlWordTok` on the full
suffix `u233 \tab Q`. -/
theorem c5_fallback_skip_partial_consumption :
    skipFallback 1 [92, 116, 97, 98, 32, 81] = [116, 97, 98, 32, 81] ∧
    [116, 97, 98, 32, 81] ≠ [32, 81] ∧
    [116, 97, 98, 32, 81] ≠ ([81] : List Nat) ∧
    skipFallback 0 [65, 66] = [66] ∧
    parseControlWordTok
      { rootStarted := true, stack := [[]], root := none, uc := [1] }
      [117, 50, 51, 51, 32, 92, 116, 97, 98, 32, 81] =
    some ({ rootStarted := true,
            stack := [[rtfElement.controlWord "u" "233"]],
            root := none, uc := [1] },
          [116, 97, 98, 32, 81]) :=
  ⟨by decide, by decide, by decide, by decide, rfl⟩

/-- C10 (code bug): after `\'` the tokenizer consumes at most two
parameter bytes and emits a one-digit parameter at EOF as claimed, but
a byte is consumed whenever `ByteIsHexDigit` accepts it, and that
predicate accepts every ASCII letter: on `\'zq` both `z` (122) and `q`
(113) are taken as the "hex" parameter although neither is a
hexadecimal digit. -/
theorem c10_hex_param_accepts_all_letters :
    parseControlSymbolTok
      { rootStarted := true, stack := [[]], root := none, uc := [1] }
      [39, 122, 113] =
      some ({ rootStarted := true,
              stack := [[rtfElement.controlSymbol singleQuote
                (strOfBytes [122, 113])]],
              root := none, uc := [1] }, []) ∧
    ByteIsHexDigit 122 = true ∧ IsRealHexDigit 122 = false ∧
    ByteIsHexDigit 113 = true ∧ IsRealHexDigit 113 = false ∧
    parseControlSymbolTok
      { rootStarted := true, stack := [[]], root := none, uc := [1] }
      [39, 65] =
      some ({ rootStarted := true,
              stack := [[rtfElement.controlSymbol singleQuote
                (strOfBytes [65])]],
              root := none, uc := [1] }, []) ∧
    (∀ s : List Nat, (readHexParam s).1.length ≤ 2) :=
  ⟨rfl, by decide, by decide, by decide, by decide, rfl, by
    intro s
    unfold readHexParam
    repeat' split
    all_goals simp⟩

theorem map_pair_eq {o : Option TokState} {r : List Nat}
    {st2 : TokState} {s2 : List Nat}
    (h : o.map (fun st => (st, r)) = some (st2, s2)) :
    o = some st2 ∧ r = s2 := by
  cases o <;> simp_all

/-- Appending a child changes neither stack depth, nor `uc`, nor the
root flag. -/
theorem addChildTok_lengths {st : TokState} {e : rtfElement}
    {st2 : TokState} (h : addChildTok st e = some st2) :
    st2.stack.length = st.stack.length ∧ st2.uc = st.uc ∧
    st2.rootStarted = st.rootStarted := by
  unfold addChildTok at h
  split at h
  · exact Option.noConfusion h
  · simp only [Option.some.injEq] at h
    subst h
    simp_all

/-- A text run changes neither stack depth, nor `uc`, nor the root
flag. -/
theorem parseTextTok_lengths {st : TokState} {s : List Nat}
    {st2 : TokState} {s2 : List Nat}
    (h : parseTextTok st s = some (st2, s2)) :
    st2.stack.length = st.stack.length ∧ st2.uc = st.uc ∧
    st2.rootStarted = st.rootStarted := by
  unfold parseTextTok at h
  split at h
  split at h
  · simp only [Option.some.injEq, Prod.mk.injEq] at h
    obtain ⟨h1, _⟩ := h
    subst h1
    exact ⟨rfl, rfl, rfl⟩
  · obtain ⟨hadd, _⟩ := map_pair_eq h
    exact addChildTok_lengths hadd

/-- A control symbol changes neither stack depth, nor `uc`, nor the
root flag. -/
theorem parseControlSymbolTok_lengths {st : TokState} {s : List Nat}
    {st2 : TokState} {s2 : List Nat}
    (h : parseControlSymbolTok st s = some (st2, s2)) :
    st2.stack.length = st.stack.length ∧ st2.uc = st.uc ∧
    st2.rootStarted = st.rootStarted := by
  unfold parseControlSymbolTok at h
  repeat' split at h
  all_goals
    first
    | exact Option.noConfusion h
    | (simp only [Option.some.injEq, Prod.mk.injEq] at h
       obtain ⟨h1, _⟩ := h
       subst h1
       exact ⟨rfl, rfl, rfl⟩)
    | (obtain ⟨hadd, _⟩ := map_pair_eq h
       exact addChildTok_lengths hadd)

/-- A control word preserves stack depth, `uc` depth and the root
flag (`\ucN` replaces the top frame, nothing pushes or pops). -/
theorem parseControlWordTok_lengths {st : TokState} {s : List Nat}
    {st2 : TokState} {s2 : List Nat}
    (h : parseControlWordTok st s = some (st2, s2)) :
    st2.stack.length = st.stack.length ∧ st2.uc.length = st.uc.length ∧
    st2.rootStarted = st.rootStarted := by
  unfold parseControlWordTok at h
  repeat' split at h
  all_goals
    first
    | exact Option.noConfusion h
    | (obtain ⟨hadd, _⟩ := map_pair_eq h
       obtain ⟨ha, hb, hc⟩ := addChildTok_lengths hadd
       exact ⟨by simpa using ha, by simp_all [hb], by simpa using hc⟩)

/-- Dispatch after a backslash preserves stack depth, `uc` depth and
the root flag. -/
theorem parseControlTok_lengths {st : TokState} {s : List Nat}
    {st2 : TokState} {s2 : List Nat}
    (h : parseControlTok st s = some (st2, s2)) :
    st2.stack.length = st.stack.length ∧ st2.uc.length = st.uc.length ∧
    st2.rootStarted = st.rootStarted := by
  unfold parseControlTok at h
  split at h
  · simp only [Option.some.injEq, Prod.mk.injEq] at h
    obtain ⟨h1, _⟩ := h
    subst h1
    exact ⟨rfl, rfl, rfl⟩
  · split at h
    · exact parseControlWordTok_lengths h
    · obtain ⟨ha, hb, hc⟩ := parseControlSymbolTok_lengths h
      exact ⟨ha, by rw [hb], hc⟩

/-- Invariant transfer along depth-preserving steps. -/
theorem TokInv_of_lengths {st st2 : TokState} (hinv : TokInv st)
    (ha : st2.stack.length = st.stack.length)
    (hb : st2.uc.length = st.uc.length)
    (hc : st2.rootStarted = st.rootStarted) : TokInv st2 := by
  constructor
  · rw [hb, ha]
    exact hinv.1
  · intro hf
    rw [hc] at hf
    obtain ⟨h1, h2⟩ := hinv.2 hf
    constructor
    · rw [← List.length_eq_zero, ha, h1]
      rfl
    · rw [← List.length_eq_zero, hb, h2]
      rfl

/-- Opening a group preserves the invariant: one frame is pushed on
the group stack and one on `uc`. -/
theorem startGroupTok_inv {st st2 : TokState} (hinv : TokInv st)
    (h : startGroupTok st = some st2) : TokInv st2 := by
  unfold startGroupTok at h
  split at h
  · rename_i hroot
    obtain ⟨h1, h2⟩ := hinv.2 hroot
    simp only [Option.some.injEq] at h
    subst h
    constructor
    · simp [h2]
    · intro hf
      simp at hf
  · split at h
    · simp only [Option.some.injEq] at h
      subst h
      constructor
      · simpa using hinv.1
      · intro hf
        simp_all
    · exact Option.noConfusion h

/-- Closing a group preserves the invariant: one frame is popped from
the group stack and (given the invariant) one from `uc`. -/
theorem endGroupTok_inv {st st2 : TokState} (hinv : TokInv st)
    (h : endGroupTok st = some st2) : TokInv st2 := by
  rcases hstack : st.stack with _ | ⟨cs, rest⟩
  · unfold endGroupTok at h
    rw [hstack] at h
    exact Option.noConfusion h
  · have hucpos : st.uc.length = rest.length + 1 := by
      rw [hinv.1, hstack]
      rfl
    unfold endGroupTok at h
    rw [hstack] at h
    rcases rest with _ | ⟨parent, rest2⟩
    · simp only [List.length_nil] at hucpos
      simp only [Option.some.injEq] at h
      subst h
      refine ⟨?_, ?_⟩
      · simp only [List.length_tail]
        simp [hucpos]
      · intro _
        refine ⟨rfl, ?_⟩
        rw [← List.length_eq_zero, List.length_tail]
        omega
    · simp only [List.length_cons] at hucpos
      simp only [Option.some.injEq] at h
      subst h
      refine ⟨?_, ?_⟩
      · simp only [List.length_tail, List.length_cons]
        omega
      · intro hf
        obtain ⟨h1, _⟩ := hinv.2 hf
        rw [hstack] at h1
        exact absurd h1 (by simp)

/-- The tokenizer loop preserves the stack invariant: for every fuel,
input and state, a run that completes without a Go panic keeps one
`uc` frame per open group. -/
theorem parseLoop_inv :
    ∀ (fuel : Nat) (st : TokState) (s : List Nat) (st2 : TokState),
    TokInv st → parseLoop fuel st s = some st2 → TokInv st2 := by
  intro fuel
  induction fuel with
  | zero =>
    intro st s st2 hinv h
    unfold parseLoop at h
    simp only [Option.some.injEq] at h
    subst h
    exact hinv
  | succ n ih =>
    intro st s st2 hinv h
    match s with
    | [] =>
      unfold parseLoop at h
      simp only [Option.some.injEq] at h
      subst h
      exact hinv
    | b :: rest =>
      unfold parseLoop at h
      split at h
      · simp only [Option.some.injEq] at h
        subst h
        exact hinv
      · split at h
        · -- start group
          split at h
          · rename_i st3 hstart
            exact ih st3 rest st2 (startGroupTok_inv hinv hstart) h
          · exact Option.noConfusion h
        · split at h
          · -- end group
            split at h
            · rename_i st3 hend
              exact ih st3 rest st2 (endGroupTok_inv hinv hend) h
            · exact Option.noConfusion h
          · split at h
            · -- control word / symbol
              split at h
              · rename_i st3 s3 hctl
                obtain ⟨ha, hb, hc⟩ := parseControlTok_lengths hctl
                exact ih st3 s3 st2 (TokInv_of_lengths hinv ha hb hc) h
              · exact Option.noConfusion h
            · -- text
              split at h
              · rename_i st3 s3 htext
                obtain ⟨ha, hb, hc⟩ := parseTextTok_lengths htext
                exact ih st3 s3 st2
                  (TokInv_of_lengths hinv ha (by rw [hb]) hc) h
              · exact Option.noConfusion h

/-- Setting a key makes it readable back. -/
theorem mapGet_mapSet (m : List (String × String)) (k v : String) :
    mapGet (mapSet m k v) k = some v := by
  induction m with
  | nil => simp [mapSet, mapGet]
  | cons kv rest ih =>
    unfold mapSet
    split
    · simp [mapGet]
    · rename_i hne
      unfold mapGet
      rw [List.find?_cons_of_neg _ (by simpa using hne)]
      exact ih

/-- C1 (code bug): the state is NOT restored on group exit.
`rtfState.copy` ranges over the fresh map instead of the receiver, so
the frame pushed on group entry is always empty; walking a nested
group while the current state holds `f = 2` ends with the empty state,
not with the entry state. -/
theorem c1_state_not_restored_on_group_exit :
    rtfState.copy ⟨[("f", "2")]⟩ = NewRtfState ∧
    c1interp.groupCurrentState = (⟨[("f", "2")]⟩ : rtfState) ∧
    (parseGroup 2 convId c1interp []).groupCurrentState = NewRtfState ∧
    NewRtfState ≠ (⟨[("f", "2")]⟩ : rtfState) :=
  ⟨rfl, rfl, rfl, by decide⟩

/-- C3 counterexample: processing `\b` (flag word, absent parameter,
outside htmltag and suppression) leaves the interpreter completely
unchanged — no `b` entry is created, where the claim requires the
entry to be set ON (`"1"`). -/
theorem c3_counterexample_b_ignored :
    parseControlWordI c3interp "b" "" = c3interp ∧
    rtfState.stateExists (parseControlWordI c3interp "b" "").groupCurrentState
      "b" = false ∧
    rtfState.stateValue (parseControlWordI c3interp "b" "").groupCurrentState
      "b" ≠ "1" :=
  ⟨rfl, rfl, by decide⟩

/-- C3 as amended: outside an htmltag destination and outside htmlrtf
suppression, only `\f` and `\fs` among the claim's control words
update the corresponding entry at the top of the state stack (with the
raw parameter string — they are value-typed); the other eleven words
(`\b`, `\i`, `\ul`, `\strike`, `\super`, `\v`, `\cf`, `\cb`,
`\chcfpat`, `\chcbpat`, `\highlight`) leave the interpreter unchanged;
the flag rule (parameter `0` is OFF, any other — including absent — is
ON) is applied by `updateState`, which among body control words is
reached only by `\htmlrtf`. -/
theorem c3_only_f_fs_update_state (p : HtmlInterp) (param : String)
    (hsup : ¬ htmlrtfOn p) (htag : p.insideHtmlTagGroup ≤ 0) :
    (parseControlWordI p "f" param = updateState p "f" param) ∧
    (parseControlWordI p "fs" param = updateState p "fs" param) ∧
    (rtfState.stateValue (updateState p "f" param).groupCurrentState "f" =
      param) ∧
    (rtfState.stateValue (updateState p "fs" param).groupCurrentState "fs" =
      param) ∧
    (∀ w, w ∈ ["b", "i", "ul", "strike", "super", "v", "cf", "cb",
        "chcfpat", "chcbpat", "highlight"] →
      parseControlWordI p w param = p) ∧
    (rtfState.stateValue (updateState p "htmlrtf" "0").groupCurrentState
      "htmlrtf" = "0") ∧
    (∀ v, v ≠ "0" →
      rtfState.stateValue (updateState p "htmlrtf" v).groupCurrentState
        "htmlrtf" = "1") := by
  have hnotag : ¬ p.insideHtmlTagGroup > 0 := by omega
  refine ⟨?_, ?_, ?_, ?_, ?_, ?_, ?_⟩
  · unfold parseControlWordI
    rw [if_neg (by decide), if_neg hnotag, if_neg (fun hc => hsup hc.2)]
    simp
  · unfold parseControlWordI
    rw [if_neg (by decide), if_neg hnotag, if_neg (fun hc => hsup hc.2)]
    simp
  · unfold updateState rtfState.stateValue
    simp only [DetectWordState]
    rw [mapGet_mapSet]
    simp
  · unfold updateState rtfState.stateValue
    simp only [DetectWordState]
    rw [mapGet_mapSet]
    simp
  · intro w hw
    fin_cases hw <;>
      (unfold parseControlWordI
       rw [if_neg (by decide), if_neg hnotag,
         if_neg (fun hc => hsup hc.2)]
       simp)
  · unfold updateState rtfState.stateValue
    simp only [DetectWordState]
    rw [mapGet_mapSet]
    simp
  · intro v hv
    unfold updateState rtfState.stateValue
    simp only [DetectWordState]
    rw [mapGet_mapSet]
    simp [hv]

/-- Witness for the amended C3 at a concrete non-suppressed state:
`\f 3` stores `3` in the `f` entry, `\b` changes nothing, and
`\htmlrtf` with absent parameter turns the flag ON. -/
theorem c3_only_f_fs_update_state_witness :
    rtfState.stateValue
      (parseControlWordI c3interp "f" "3").groupCurrentState "f" = "3" ∧
    parseControlWordI c3interp "b" "3" = c3interp ∧
    rtfState.stateValue (updateState c3interp "htmlrtf" "").groupCurrentState
      "htmlrtf" = "1" := by
  obtain ⟨h1, _, h3, _, h5, _, h7⟩ :=
    c3_only_f_fs_update_state c3interp "3" (by decide) (by decide)
  refine ⟨?_, h5 "b" (by simp), ?_⟩
  · rw [h1]
    exact h3
  · obtain ⟨hx1, _, hx3, _, _, _, hx7⟩ :=
      c3_only_f_fs_update_state c3interp "" (by decide) (by decide)
    exact hx7 "" (by decide)

/-- C4: while the `htmlrtf` state is ON and outside an htmltag
destination, text runs, control symbols and control words are fully
suppressed (the interpreter state, including the output buffer, is
unchanged), except that `\fN` still updates the font state (without
touching the output) and `\htmlrtf0` itself turns suppression off. -/
theorem c4_htmlrtf_suppresses_tokens
    (conv : List Nat → String → List Nat) (p : HtmlInterp)
    (hsup : htmlrtfOn p) (htag : p.insideHtmlTagGroup ≤ 0) :
    (∀ content, parseTextI conv p content = p) ∧
    (∀ sym par, parseControlSymbolI conv p sym par = p) ∧
    (∀ w par, w ≠ "f" → w ≠ "htmlrtf" → parseControlWordI p w par = p) ∧
    (∀ par, parseControlWordI p "f" par = updateState p "f" par ∧
      (updateState p "f" par).content = p.content ∧
      rtfState.stateValue (updateState p "f" par).groupCurrentState "f" =
        par) ∧
    (parseControlWordI p "htmlrtf" "0" = updateState p "htmlrtf" "0" ∧
      ¬ htmlrtfOn (updateState p "htmlrtf" "0")) := by
  have hnotag : ¬ p.insideHtmlTagGroup > 0 := by omega
  refine ⟨?_, ?_, ?_, ?_, ?_, ?_⟩
  · intro content
    unfold parseTextI
    rw [if_pos hsup]
  · intro sym par
    unfold parseControlSymbolI
    rw [if_pos hsup]
  · intro w par hwf hwh
    unfold parseControlWordI
    rw [if_neg hwh, if_neg hnotag, if_pos ⟨hwf, hsup⟩]
  · intro par
    refine ⟨?_, rfl, ?_⟩
    · unfold parseControlWordI
      rw [if_neg (by decide), if_neg hnotag,
        if_neg (fun hc => hc.1 rfl)]
      simp
    · unfold updateState rtfState.stateValue
      simp only [DetectWordState]
      rw [mapGet_mapSet]
      simp
  · unfold parseControlWordI
    rw [if_pos rfl]
  · intro hc
    have := hc.2
    unfold updateState rtfState.stateValue at this
    simp only [DetectWordState] at this
    rw [mapGet_mapSet] at this
    simp at this

/-- Witness for C4 at a concrete suppressed state: a text run and a
`\par` leave the interpreter untouched, while `\f 7` still lands in
the font state. -/
theorem c4_htmlrtf_suppresses_tokens_witness :
    parseTextI convId c4interp [65] = c4interp ∧
    parseControlWordI c4interp "par" "" = c4interp ∧
    rtfState.stateValue (updateState c4interp "f" "7").groupCurrentState
      "f" = "7" := by
  obtain ⟨h1, h2, h3, h4, h5⟩ :=
    c4_htmlrtf_suppresses_tokens convId c4interp (by decide) (by decide)
  exact ⟨h1 [65], h3 "par" "" (by decide) (by decide), (h4 "7").2.2⟩

/-! ## Interpreter state-stack balance (C6, interpreter side) -/

theorem foldl_groups_length (f : HtmlInterp → rtfElement → HtmlInterp)
    (hf : ∀ p e, (f p e).groupsInitialStates.length =
      p.groupsInitialStates.length) :
    ∀ (l : List rtfElement) (p : HtmlInterp),
    ((l.foldl f p).groupsInitialStates.length =
      p.groupsInitialStates.length) := by
  intro l
  induction l with
  | nil => intro p; rfl
  | cons e es ih =>
    intro p
    rw [List.foldl_cons, ih, hf]

theorem parseTextI_groups (conv : List Nat → String → List Nat)
    (p : HtmlInterp) (content : List Nat) :
    (parseTextI conv p content).groupsInitialStates =
      p.groupsInitialStates := by
  unfold parseTextI
  split <;> rfl

theorem parseControlSymbolI_groups (conv : List Nat → String → List Nat)
    (p : HtmlInterp) (sym par : String) :
    (parseControlSymbolI conv p sym par).groupsInitialStates =
      p.groupsInitialStates := by
  simp only [parseControlSymbolI]
  repeat' split
  all_goals rfl

theorem updateState_groups (p : HtmlInterp) (w v : String) :
    (updateState p w v).groupsInitialStates = p.groupsInitialStates := rfl

theorem parseControlWordI_groups (p : HtmlInterp) (w par : String) :
    (parseControlWordI p w par).groupsInitialStates =
      p.groupsInitialStates := by
  unfold parseControlWordI
  simp only [apply_ite (fun q : HtmlInterp => q.groupsInitialStates),
    updateState_groups, ite_self]

theorem parseFontInfoGroup_groups (p : HtmlInterp) (cs : List rtfElement) :
    (parseFontInfoGroup p cs).groupsInitialStates =
      p.groupsInitialStates := rfl

theorem parseFontTableGroup_groups (p : HtmlInterp) (cs : List rtfElement) :
    (parseFontTableGroup p cs).groupsInitialStates =
      p.groupsInitialStates := by
  unfold parseFontTableGroup
  have : ∀ (l : List rtfElement) (q : HtmlInterp),
      ((l.foldl (fun acc child =>
        match child with
        | rtfElement.group gcs =>
          if IsFontInfo gcs then parseFontInfoGroup acc gcs else acc
        | _ => acc) q).groupsInitialStates = q.groupsInitialStates) := by
    intro l
    induction l with
    | nil => intro q; rfl
    | cons e es ih =>
      intro q
      rw [List.foldl_cons, ih]
      rcases e <;> simp only [] <;> first | rfl | (split <;> rfl)
  rw [this]

theorem parseColorTableGroup_groups (p : HtmlInterp) (cs : List rtfElement) :
    (parseColorTableGroup p cs).groupsInitialStates =
      p.groupsInitialStates := by
  unfold parseColorTableGroup
  split <;> rfl

theorem setBodyStopped_groups (p : HtmlInterp) (b : Bool) :
    (setBodyStopped p b).groupsInitialStates = p.groupsInitialStates := by
  unfold setBodyStopped
  split <;> rfl

theorem setBodyStarted_groups (p : HtmlInterp) (b : Bool) :
    (setBodyStarted p b).groupsInitialStates = p.groupsInitialStates := by
  unfold setBodyStarted
  split <;> rfl

theorem incHtmlTag_groups (p : HtmlInterp) (b : Bool) :
    (incHtmlTag p b).groupsInitialStates = p.groupsInitialStates := by
  unfold incHtmlTag
  split <;> rfl

theorem decHtmlTag_groups (p : HtmlInterp) (b : Bool) :
    (decHtmlTag p b).groupsInitialStates = p.groupsInitialStates := by
  unfold decHtmlTag
  repeat' split
  all_goals rfl

theorem pushInitialState_len (p : HtmlInterp) :
    (pushInitialState p).groupsInitialStates.length =
      p.groupsInitialStates.length + 1 := by
  unfold pushInitialState
  split <;> simp

theorem popInitialState_len (p : HtmlInterp) :
    (popInitialState p).groupsInitialStates.length =
      p.groupsInitialStates.length - 1 := by
  unfold popInitialState
  simp [List.length_dropLast]

theorem parseElementIF_groups_length :
    ∀ (fuel : Nat) (conv : List Nat → String → List Nat) (p : HtmlInterp)
      (e : rtfElement),
    (parseElementIF fuel conv p e).groupsInitialStates.length =
      p.groupsInitialStates.length := by
  intro fuel
  induction fuel with
  | zero => intro conv p e; rfl
  | succ n ih =>
    intro conv p e
    match e with
    | .controlSymbol s par =>
      exact congrArg List.length (parseControlSymbolI_groups conv p s par)
    | .controlWord w par =>
      exact congrArg List.length (parseControlWordI_groups p w par)
    | .text content =>
      exact congrArg List.length (parseTextI_groups conv p content)
    | .group cs =>
      simp only [parseElementIF]
      rcases hht : htmlTagInfo p.bodyStarted cs with ⟨isTag, isStart, isStop⟩
      simp only [decHtmlTag_groups]
      split
      · simp [parseFontTableGroup_groups, incHtmlTag_groups,
          setBodyStopped_groups]
      · split
        · simp [parseColorTableGroup_groups, incHtmlTag_groups,
            setBodyStopped_groups]
        · split
          · simp [incHtmlTag_groups, setBodyStopped_groups]
          · simp only [setBodyStarted_groups, popInitialState_len]
            rw [foldl_groups_length _ (fun q e2 => ih conv q e2)]
            simp only [pushInitialState_len]
            simp [incHtmlTag_groups, setBodyStopped_groups]

/-- C6 as amended: pushes and pops balance, but the stacks end the
walk EMPTY, not with one frame.  Tokenizer side: every non-panicking
run keeps one `uc` frame per open group, so a completed well-formed
document (root closed, no open group) ends with `uc = []`.
Interpreter side: every walk leaves `groupsInitialStates` at its entry
depth, and a full `Parse` (entry depth 0) ends with the empty state
stack. -/
theorem c6_stacks_balance_to_empty_depth :
    (∀ (fuel : Nat) (st : TokState) (s : List Nat) (st2 : TokState),
      TokInv st → parseLoop fuel st s = some st2 →
      st2.uc.length = st2.stack.length) ∧
    (∀ (s : List Nat) (st2 : TokState),
      tokenize s = some st2 → st2.stack = [] → st2.uc = []) ∧
    (∀ (fuel : Nat) (conv : List Nat → String → List Nat) (p : HtmlInterp)
      (e : rtfElement),
      (parseElementIF fuel conv p e).groupsInitialStates.length =
        p.groupsInitialStates.length) ∧
    (∀ (fuel : Nat) (conv : List Nat → String → List Nat)
      (tag : String) (root : List rtfElement) (res : List Nat)
      (p1 : HtmlInterp),
      HtmlInterpParse fuel conv tag root = some (res, p1) →
      p1.groupsInitialStates = []) := by
  refine ⟨?_, ?_, parseElementIF_groups_length, ?_⟩
  · intro fuel st s st2 hinv h
    exact (parseLoop_inv fuel st s st2 hinv h).1
  · intro s st2 h hstack
    have hinv0 : TokInv initTokState := ⟨rfl, fun _ => ⟨rfl, rfl⟩⟩
    have := (parseLoop_inv (s.length + 1) initTokState s st2 hinv0 h).1
    rw [hstack] at this
    simpa [List.length_eq_zero] using this
  · intro fuel conv tag root res p1 h
    unfold HtmlInterpParse at h
    split at h
    · simp only [Option.some.injEq, Prod.mk.injEq] at h
      have hp := h.2
      have hlen := parseElementIF_groups_length fuel conv
        { content := [], insideHtmlTagGroup := 0, rtfEncoding := "",
          defaultFont := 0, fontTable := [], colorTable := [],
          styleTag := tag, groupsInitialStates := [],
          groupCurrentState := ⟨[]⟩, styleTagOpened := 0,
          bodyStarted := false, bodyStopped := false }
        (.group root)
      rw [← List.length_eq_zero, ← hp]
      exact hlen
    · exact Option.noConfusion h

/-- C6 counterexample: for the well-formed document `\x7b\x7d` the
tokenizer's `uc` stack ends EMPTY (zero frames, not one: the root's
closing brace pops the frame its opening brace pushed), and the
interpreter's state stack also ends empty after a full parse of the
valid document `\x7b\\rtf1\x7d`. -/
theorem c6_counterexample_stacks_end_empty :
    tokenize [123, 125] =
      some { rootStarted := true, stack := [], root := some [],
             uc := [] } ∧
    (([] : List Int).length = 1 → False) ∧
    (HtmlInterpParse 2 convId "span"
      [rtfElement.controlWord "rtf" "1"]).map
        (fun pr => pr.2.groupsInitialStates.length) = some 0 ∧
    ((0 : Nat) = 1 → False) :=
  ⟨rfl, by decide, rfl, by decide⟩

/-- Witness for the amended C6: the invariant and the final-emptiness
statement applied to the concrete tokenizer run on an empty group, and
the interpreter statement applied to the concrete parse of a minimal
valid document. -/
theorem c6_stacks_balance_to_empty_depth_witness :
    ({ rootStarted := true, stack := [], root := some [],
       uc := [] } : TokState).uc = ([] : List Int) ∧
    ({ rootStarted := true, stack := [], root := some [],
       uc := [] } : TokState).uc.length =
      ({ rootStarted := true, stack := [], root := some [],
         uc := [] } : TokState).stack.length ∧
    c6interp0.groupsInitialStates = [] := by
  refine ⟨?_, ?_, ?_⟩
  · exact c6_stacks_balance_to_empty_depth.2.1 [123, 125]
      { rootStarted := true, stack := [], root := some [], uc := [] }
      rfl rfl
  · exact c6_stacks_balance_to_empty_depth.1 3 initTokState [123, 125]
      { rootStarted := true, stack := [], root := some [], uc := [] }
      ⟨rfl, fun _ => ⟨rfl, rfl⟩⟩ rfl
  · exact c6_stacks_balance_to_empty_depth.2.2.2 2 convId "span"
      [rtfElement.controlWord "rtf" "1"] [] c6interp0 rfl

end RtfConverter
